import Mathlib

/-!
Formal model of the Canvas Bombardment game loop (`src/pages/Index.tsx`),
shallowly embedded in Lean.

Numbers: the source uses JS doubles; the model uses `ℚ` (exact arithmetic).
The test `Math.hypot dx dy <= b` is embedded as `0 ≤ b ∧ dx^2 + dy^2 ≤ b^2`,
which is equivalent over ordered fields.  Render-only state (particles,
building trajectories, canvas drawing) is omitted; `buildings` keeps only the
count of debris objects pushed by `triggerEarthquake`.  The `setTimeout`
callbacks of the source are modelled as explicit scheduled tasks (`tasks`,
fired by `Op.taskDue`), and the debounced settle timer (`stopTimer`) as
`pendingSettle` (the time at which the armed settle detonation fires).

Ghost state, not present in the source, used only to state properties:
each explosion carries an identifier `eid` so that "the same explosion"
is expressible across steps (the source relies on object identity);
`nextEid` is the next fresh identifier; `reloadScheduleCount` counts calls
of `setTimeout(() => window.location.reload(), ...)` and `reloadFired`
counts reload callbacks that actually ran.
-/

namespace CB

/-- Source: `const clamp = (v, a, b) => Math.max(a, Math.min(b, v))`. -/
def clamp (v a b : ℚ) : ℚ := max a (min b v)

/-- Source `Explosion` record (the constant `kind: 'nuclear'` field is
dropped; `eid` is ghost identity, see the module comment). -/
structure Explosion where
  eid : ℕ
  x : ℚ
  y : ℚ
  /-- collision/shockwave radius -/
  r : ℚ
  maxR : ℚ
  alive : Bool
  createdAt : ℚ
  lifeMs : ℚ
  hitBomber : Bool
  hitBoy : Bool
deriving DecidableEq, Repr

/-- Source `Actor` record (shared by `boy` and `bomber`). -/
structure Actor where
  x : ℚ
  y : ℚ
  w : ℚ
  h : ℚ
  alive : Bool
  animTime : ℚ
deriving DecidableEq, Repr

/-- Source `Popup` record. -/
structure Popup where
  x : ℚ
  y : ℚ
  text : String
  life : ℚ
  maxLife : ℚ
deriving DecidableEq, Repr

/-- The two `setTimeout` callbacks scheduled by the simulation: the bomber
respawn (`setTimeout(() => { if (running) spawnBomber(); }, 1200)`) and the
page reload (`setTimeout(() => window.location.reload(), quakeDuration + 300)`). -/
inductive TaskKind where
  | respawnBomber
  | reload
deriving DecidableEq, Repr

/-- The mutable session state captured by the effect closure in `Index.tsx`. -/
structure GameState where
  width : ℚ
  height : ℚ
  mouseX : ℚ
  mouseY : ℚ
  lastMouseX : ℚ
  lastMouseY : ℚ
  firstClickHandled : Bool
  /-- `stopTimer`: when armed, the time the settle detonation fires. -/
  pendingSettle : Option ℚ
  missileX : ℚ
  missileY : ℚ
  missileVelX : ℚ
  missileVelY : ℚ
  explosions : List Explosion
  boy : Actor
  bomber : Actor
  score : ℕ
  scorePulse : ℚ
  popups : List Popup
  startTime : ℚ
  lastTime : ℚ
  quakeActive : Bool
  quakeStart : ℚ
  /-- count of debris objects only; their trajectories are render-only. -/
  buildings : ℤ
  reloadQueued : Bool
  /-- pending `setTimeout` callbacks: fire time and action. -/
  tasks : List (ℚ × TaskKind)
  running : Bool
  nextEid : ℕ
  reloadScheduleCount : ℕ
  reloadFired : ℕ
deriving DecidableEq, Repr

/-- Source: `const groundY = () => Math.min(height - 40, height * 0.9)`. -/
def groundY (height : ℚ) : ℚ := min (height - 40) (height * (9/10))

/-- The explosion literal pushed by `spawnExplosion`:
`{ x, y, r: 0, maxR: 140, alive: true, createdAt: now, kind: 'nuclear', lifeMs: 1200 }`. -/
def mkExplosion (eid : ℕ) (x y now : ℚ) : Explosion :=
  { eid := eid, x := x, y := y, r := 0, maxR := 140, alive := true,
    createdAt := now, lifeMs := 1200, hitBomber := false, hitBoy := false }

/-- Source `spawnExplosion(x, y)`. -/
def spawnExplosion (s : GameState) (x y now : ℚ) : GameState :=
  { s with explosions := s.explosions ++ [mkExplosion s.nextEid x y now],
           nextEid := s.nextEid + 1 }

/-- Source `onMouseMove`: update the pointer, always clear any pending settle
timer, and re-arm it (240 ms) only once the first click has happened. -/
def onMouseMove (s : GameState) (x y now : ℚ) : GameState :=
  { s with mouseX := x, mouseY := y,
           pendingSettle := if s.firstClickHandled then some (now + 240) else none }

/-- Source `onClick`: arm the missile-follow loop on the first click and
always spawn an explosion at the click position.  It does not touch the
settle timer. -/
def onClick (s : GameState) (x y now : ℚ) : GameState :=
  spawnExplosion { s with firstClickHandled := true } x y now

/-- The settle timer firing: `spawnExplosion(mouse.x, mouse.y)` at the
current pointer position, provided the timer is armed and due. -/
def settleFire (s : GameState) (now : ℚ) : GameState :=
  match s.pendingSettle with
  | some tf =>
      if tf ≤ now then spawnExplosion { s with pendingSettle := none } s.mouseX s.mouseY now
      else s
  | none => s

/-- Source `spawnBomber` helper inside `update`. -/
def spawnBomber (s : GameState) : GameState :=
  { s with bomber := { s.bomber with
      alive := true, animTime := 0, x := -200, y := groundY s.height - 200 } }

/-- Source `triggerEarthquake`: start the quake, rebuild the debris set
(count `max 6 ⌈width/120⌉`), and schedule the reload exactly once, guarded
by the one-shot `reloadQueued` flag. -/
def triggerEarthquake (s : GameState) (now : ℚ) : GameState :=
  let s1 := { s with quakeActive := true, quakeStart := now,
                     buildings := max 6 ⌈s.width / 120⌉ }
  if s1.reloadQueued then s1
  else { s1 with reloadQueued := true,
                 tasks := s1.tasks ++ [(now + 2200 + 300, TaskKind.reload)],
                 reloadScheduleCount := s1.reloadScheduleCount + 1 }

/-- A scheduled `setTimeout` callback firing (task `i`, provided it is due).
The respawn callback is guarded by the `running` liveness flag; the reload
callback tears the session down. -/
def taskFire (s : GameState) (i : ℕ) (now : ℚ) : GameState :=
  match s.tasks[i]? with
  | some (tf, k) =>
      if tf ≤ now then
        let s1 := { s with tasks := s.tasks.eraseIdx i }
        match k with
        | TaskKind.respawnBomber => if s1.running then spawnBomber s1 else s1
        | TaskKind.reload => { s1 with reloadFired := s1.reloadFired + 1, running := false }
      else s
  | none => s

/-- Source `circleHit(ex, cx, cy, radius)`:
`Math.hypot(ex.x - cx, ex.y - cy) <= ex.r + radius`, stated with squares. -/
def circleHit (ex : Explosion) (cx cy radius : ℚ) : Prop :=
  0 ≤ ex.r + radius ∧ (ex.x - cx) ^ 2 + (ex.y - cy) ^ 2 ≤ (ex.r + radius) ^ 2

instance (ex : Explosion) (cx cy radius : ℚ) : Decidable (circleHit ex cx cy radius) := by
  unfold circleHit; infer_instance

/-- The guard of the bomber branch of the collision loop (with the
`!ex.alive` continue folded in):
`bomber.alive && !ex.hitBomber && circleHit(ex, bomber.x, bomber.y, 40)`. -/
def bCond (s : GameState) (e : Explosion) : Prop :=
  s.bomber.alive = true ∧ e.alive = true ∧ e.hitBomber = false ∧
    circleHit e s.bomber.x s.bomber.y 40

instance (s : GameState) (e : Explosion) : Decidable (bCond s e) := by
  unfold bCond; infer_instance

/-- The guard of the boy branch of the collision loop:
`boy.alive && !ex.hitBoy && circleHit(ex, boy.x, boy.y - boy.h / 2, 28)`. -/
def yCond (s : GameState) (e : Explosion) : Prop :=
  s.boy.alive = true ∧ e.alive = true ∧ e.hitBoy = false ∧
    circleHit e s.boy.x (s.boy.y - s.boy.h / 2) 28

instance (s : GameState) (e : Explosion) : Decidable (yCond s e) := by
  unfold yCond; infer_instance

/-- The boy branch of the collision loop: flag the explosion, kill the boy
and trigger the earthquake crash. -/
def boyCheck (s : GameState) (e : Explosion) (now : ℚ) : Explosion × GameState :=
  if yCond s e then
    ({ e with hitBoy := true },
     triggerEarthquake { s with boy := { s.boy with alive := false } } now)
  else (e, s)

/-- The state mutation of the bomber branch of the collision loop (minus the
flagging of the explosion itself): `score += 1`, `scorePulse = 1`, push the
"+1" popup, spawn the secondary explosion (its list append is done by the
loop, the id/counter bookkeeping here), kill the bomber, and schedule the
respawn 1200 ms out. -/
def bomberFire (s : GameState) (now : ℚ) : GameState :=
  { s with
    score := s.score + 1, scorePulse := 1,
    popups := s.popups ++ [⟨s.bomber.x, s.bomber.y - 20, "+1", 0, 900⟩],
    nextEid := s.nextEid + 1,
    bomber := { s.bomber with alive := false },
    tasks := s.tasks ++ [(now + 1200, TaskKind.respawnBomber)] }

/-- The collision loop `for (const ex of explosions) { ... }` of `update`.
JS `for..of` also visits elements pushed during the iteration, so the
secondary explosion spawned by a bomber kill is appended to the work list.
The `fuel` argument only bounds the traversal; `collideAux_fuel` below shows
that any fuel of at least `todo.length + 1` gives the same result (a push
happens only when the bomber is alive and at the same time kills it, and
nothing in the loop revives it, so the list grows at most once). -/
def collideAux (now : ℚ) : ℕ → GameState → List Explosion → List Explosion → GameState
  | 0, s, done, todo => { s with explosions := done ++ todo }
  | _ + 1, s, done, [] => { s with explosions := done }
  | fuel + 1, s, done, e :: rest =>
      if e.alive = false then collideAux now fuel s (done ++ [e]) rest
      else if bCond s e then
        collideAux now fuel (boyCheck (bomberFire s now) { e with hitBomber := true } now).2
          (done ++ [(boyCheck (bomberFire s now) { e with hitBomber := true } now).1])
          (rest ++ [mkExplosion s.nextEid s.bomber.x s.bomber.y now])
      else
        collideAux now fuel (boyCheck s e now).2 (done ++ [(boyCheck s e now).1]) rest

/-- The `// collisions` block of `update`. -/
def collisionPhase (s : GameState) (now : ℚ) : GameState :=
  collideAux now (s.explosions.length + 1) s [] s.explosions

/-- The `// missile follow` block of `update`. -/
def missilePhase (s : GameState) : GameState :=
  if s.firstClickHandled then
    let px := s.missileX + (s.mouseX - s.missileX) * (3/20)
    let py := s.missileY + (s.mouseY - s.missileY) * (3/20)
    { s with missileX := px, missileY := py,
             missileVelX := px - s.lastMouseX, missileVelY := py - s.lastMouseY,
             lastMouseX := px, lastMouseY := py }
  else s

/-- The `// spawn boy & bomber after 30s` block of `update`. -/
def spawnPhase (s : GameState) (now : ℚ) : GameState :=
  if now - s.startTime > 30000 then
    let s1 := if s.boy.alive then s
              else { s with boy := { s.boy with
                      alive := true, x := -80, y := groundY s.height - 8 } }
    if s1.bomber.alive then s1 else spawnBomber s1
  else s

/-- The `// move boy` block of `update`: `x += 0.12 * dt`, wrapping to `-80`
once `x - w/2 > width + 40`. -/
def boyPhase (s : GameState) (dt : ℚ) : GameState :=
  if s.boy.alive then
    let x1 := s.boy.x + (3/25) * dt
    { s with boy := { s.boy with
        x := if x1 - s.boy.w / 2 > s.width + 40 then -80 else x1 } }
  else s

/-- The `// bomber behavior` block of `update`: pursuit easing toward a point
above/behind the boy while he is alive, otherwise rightward cruise with wrap. -/
def bomberPhase (s : GameState) (dt : ℚ) : GameState :=
  if s.bomber.alive && s.boy.alive then
    { s with bomber := { s.bomber with
        x := s.bomber.x + ((s.boy.x - 160) - s.bomber.x) * (3/100),
        y := s.bomber.y + ((s.boy.y - 180) - s.bomber.y) * (3/100) } }
  else if s.bomber.alive then
    let x1 := s.bomber.x + (2/25) * dt
    { s with bomber := { s.bomber with
        x := if x1 - s.bomber.w / 2 > s.width + 60 then -120 else x1 } }
  else s

/-- The `// score pulse decay and popup updates` block of `update`. -/
def pulsePopupPhase (s : GameState) (dt : ℚ) : GameState :=
  { s with
    scorePulse := max 0 (s.scorePulse - dt / 400),
    popups := (s.popups.map fun p =>
        { p with life := p.life + dt, y := p.y - (7/200) * dt }).filter
      fun p => decide (p.life < p.maxLife) }

/-- Everything `update` does before the collision loop, in source order. -/
def preCollide (s : GameState) (dt now : ℚ) : GameState :=
  pulsePopupPhase (bomberPhase (boyPhase (spawnPhase (missilePhase s) now) dt) dt) dt

/-- Source `update(dt)`. -/
def update (s : GameState) (dt now : ℚ) : GameState :=
  collisionPhase (preCollide s dt now) now

/-- The collision radius written by `drawNuclearExplosion`:
`ex.r = ex.maxR * (0.2 + 0.8 * clamp(elapsed / ex.lifeMs, 0, 1))`. -/
def radiusAt (maxR lifeMs elapsed : ℚ) : ℚ :=
  maxR * (1/5 + (4/5) * clamp (elapsed / lifeMs) 0 1)

/-- The state mutation done by the explosion draw pass of `loop`
(`for (const ex of explosions) if (ex.alive) drawNuclearExplosion(ex)`):
growing each live explosion's collision radius for the current time. -/
def growExplosions (s : GameState) (now : ℚ) : GameState :=
  { s with explosions := s.explosions.map fun e =>
      if e.alive then { e with r := radiusAt e.maxR e.lifeMs (now - e.createdAt) } else e }

/-- The state mutations done by the draw pass of `loop`: explosion radius
growth plus the `animTime += dt` bookkeeping of `drawBoy` / `drawBomber`.
(Particle emission and decay are render-only and omitted.) -/
def renderPhase (s : GameState) (dt now : ℚ) : GameState :=
  let s1 := growExplosions s now
  { s1 with
    boy := if s1.boy.alive then { s1.boy with animTime := s1.boy.animTime + dt } else s1.boy,
    bomber := if s1.bomber.alive then { s1.bomber with animTime := s1.bomber.animTime + dt }
              else s1.bomber }

/-- The `// cleanup explosions by life` block of `loop`: explosions with
`now - createdAt > lifeMs` are removed from the live set. -/
def cleanupPhase (s : GameState) (now : ℚ) : GameState :=
  { s with explosions := s.explosions.filter fun e =>
      decide (¬ now - e.createdAt > e.lifeMs) }

/-- One `loop(time)` callback: compute `dt`, run `update`, hand the state to
the draw pass (which grows explosion radii), then clean up stale explosions. -/
def frame (s : GameState) (now : ℚ) : GameState :=
  let dt := now - s.lastTime
  cleanupPhase (renderPhase (update { s with lastTime := now } dt now) dt now) now

/-- The entry points through which the session state evolves: an animation
frame, a pointer move, a click/tap, the settle timer firing (a no-op unless
armed and due), and a scheduled task firing (a no-op unless due). -/
inductive Op where
  | frame (now : ℚ)
  | move (x y now : ℚ)
  | click (x y now : ℚ)
  | settleDue (now : ℚ)
  | taskDue (i : ℕ) (now : ℚ)
deriving DecidableEq, Repr

/-- Dispatch one event. -/
def stepOp (s : GameState) : Op → GameState
  | Op.frame now => frame s now
  | Op.move x y now => onMouseMove s x y now
  | Op.click x y now => onClick s x y now
  | Op.settleDue now => settleFire s now
  | Op.taskDue i now => taskFire s i now

/-- Run a sequence of events. -/
def run (s : GameState) (ops : List Op) : GameState := ops.foldl stepOp s

/-- The session state as initialised by the effect body (viewport `w × h`,
session start `t0`). -/
def initState (w h t0 : ℚ) : GameState :=
  { width := w, height := h,
    mouseX := w / 2, mouseY := h / 2,
    lastMouseX := w / 2, lastMouseY := h / 2,
    firstClickHandled := false, pendingSettle := none,
    missileX := w / 2, missileY := h / 2, missileVelX := 0, missileVelY := 0,
    explosions := [],
    boy := { x := -80, y := groundY h - 40, w := 28, h := 46, alive := false, animTime := 0 },
    bomber := { x := -200, y := groundY h - 200, w := 110, h := 34, alive := false, animTime := 0 },
    score := 0, scorePulse := 0, popups := [],
    startTime := t0, lastTime := t0,
    quakeActive := false, quakeStart := 0, buildings := 0,
    reloadQueued := false, tasks := [], running := true,
    nextEid := 0, reloadScheduleCount := 0, reloadFired := 0 }

/-- Number of explosions in a list already flagged for the bomber. -/
def flagCount (l : List Explosion) : ℕ := (l.filter fun e => e.hitBomber).length

/-- Ghost-identity well-formedness: explosion ids are distinct and below the
next fresh id. -/
def WF (s : GameState) : Prop :=
  (s.explosions.map Explosion.eid).Nodup ∧ ∀ e ∈ s.explosions, e.eid < s.nextEid

/-- A frame in the order the specification claims (integration including
explosion-radius growth, then collision testing, then stale-entity cleanup,
then the — pure — renderer).  Written only for comparison with `frame`,
which is the order of the source. -/
def specOrderedFrame (s : GameState) (now : ℚ) : GameState :=
  let dt := now - s.lastTime
  cleanupPhase
    (collisionPhase (growExplosions (preCollide { s with lastTime := now } dt now) now) now) now

/-! ### Concrete session scenarios used to instantiate the results -/

/-- Events of an 800×600 session: a frame just past the 30 s spawn gate, a
click at the bomber's fly-in point, and one more frame in which the fresh
explosion overlaps the bomber. -/
def killFrameOps : List Op := [Op.frame 31000, Op.click (-200) 340 31000, Op.frame 31016]

/-- The same session stopped right before the killing frame, written out as
the state it has reached: the first frame has spawned the runner and the
bomber and the click has left one fresh explosion at (-200, 340). -/
def sHitRun : GameState :=
  { width := 800, height := 600, mouseX := 400, mouseY := 300, lastMouseX := 400, lastMouseY := 300, firstClickHandled := true, pendingSettle := none, missileX := 400, missileY := 300, missileVelX := 0, missileVelY := 0, explosions := [⟨0, -200, 340, 0, 140, true, 31000, 1200, false, false⟩], boy := ⟨-80, 532, 28, 46, true, 31000⟩, bomber := ⟨-1006/5, 8509/25, 110, 34, true, 31000⟩, score := 0, scorePulse := 0, popups := [], startTime := 0, lastTime := 31000, quakeActive := false, quakeStart := 0, buildings := 0, reloadQueued := false, tasks := [], running := true, nextEid := 1, reloadScheduleCount := 0, reloadFired := 0 }

/-- The flagged explosion left by `killFrameOps`: radius grown for 16 ms of
life, `hitBomber` set. -/
def eKill : Explosion := ⟨0, -200, 340, 2212/75, 140, true, 31000, 1200, true, false⟩

/-- An 800×600 session right after a first click at (5, 5) at time 0. -/
def s4w : GameState := stepOp (initState 800 600 0) (Op.click 5 5 0)

/-- The explosion of `s4w` as it stands after the frame at 600 ms: radius
grown to `140 · (0.2 + 0.8 · (600/1200)) = 84`. -/
def e4w : Explosion := ⟨0, 5, 5, 84, 140, true, 0, 1200, false, false⟩

/-- A state with a 10 ms-old zero-radius explosion at the origin and a live
bomber 41 px away: a hit only if radii were grown before the hit test. -/
def sOrder : GameState := { initState 800 600 0 with firstClickHandled := true, lastTime := 584, explosions := [⟨0, 0, 0, 0, 140, true, 590, 1200, false, false⟩], nextEid := 1, bomber := ⟨41, 0, 110, 34, true, 0⟩ }

/-- Events of a 50000-wide session that kill the bomber in flight at
281032 ms: two frames past the spawn gate, then a click placed exactly at
the bomber's position, then the frame that detects the hit. -/
def opsKill6 : List Op := [Op.frame 281000, Op.frame 281016, Op.click ((171334027 : ℚ)/62500) ((85261981 : ℚ)/250000) 281016, Op.frame 281032]

/-- An 800×600 session whose runner stands at `x = width + 41`, the spec's
claimed wrap threshold. -/
def s7wrap : GameState := { initState 800 600 0 with boy := ⟨841, 532, 28, 46, true, 0⟩ }

/-- An 800×600 session right after its first activation, so the settle
timer is armable. -/
def sClicked : GameState := stepOp (initState 800 600 0) (Op.click 1 2 0)


/-! ### Basic preservation lemmas for the collision-loop building blocks -/

theorem triggerEarthquake_bomber (s : GameState) (now : ℚ) :
    (triggerEarthquake s now).bomber = s.bomber := by
  unfold triggerEarthquake; dsimp only; split <;> rfl

theorem triggerEarthquake_boy (s : GameState) (now : ℚ) :
    (triggerEarthquake s now).boy = s.boy := by
  unfold triggerEarthquake; dsimp only; split <;> rfl

theorem triggerEarthquake_score (s : GameState) (now : ℚ) :
    (triggerEarthquake s now).score = s.score := by
  unfold triggerEarthquake; dsimp only; split <;> rfl

theorem triggerEarthquake_scorePulse (s : GameState) (now : ℚ) :
    (triggerEarthquake s now).scorePulse = s.scorePulse := by
  unfold triggerEarthquake; dsimp only; split <;> rfl

theorem triggerEarthquake_popups (s : GameState) (now : ℚ) :
    (triggerEarthquake s now).popups = s.popups := by
  unfold triggerEarthquake; dsimp only; split <;> rfl

theorem triggerEarthquake_nextEid (s : GameState) (now : ℚ) :
    (triggerEarthquake s now).nextEid = s.nextEid := by
  unfold triggerEarthquake; dsimp only; split <;> rfl

theorem triggerEarthquake_explosions (s : GameState) (now : ℚ) :
    (triggerEarthquake s now).explosions = s.explosions := by
  unfold triggerEarthquake; dsimp only; split <;> rfl

theorem triggerEarthquake_tasks (s : GameState) (now : ℚ) :
    ∃ ts, (triggerEarthquake s now).tasks = s.tasks ++ ts := by
  unfold triggerEarthquake; dsimp only; split
  · exact ⟨[], (List.append_nil _).symm⟩
  · exact ⟨[(now + 2200 + 300, TaskKind.reload)], rfl⟩

theorem boyCheck_bomber (s : GameState) (e : Explosion) (now : ℚ) :
    (boyCheck s e now).2.bomber = s.bomber := by
  unfold boyCheck; split
  · exact triggerEarthquake_bomber _ _
  · rfl

theorem boyCheck_boy_pos (s : GameState) (e : Explosion) (now : ℚ) :
    (boyCheck s e now).2.boy.x = s.boy.x ∧ (boyCheck s e now).2.boy.y = s.boy.y ∧
      (boyCheck s e now).2.boy.w = s.boy.w ∧ (boyCheck s e now).2.boy.h = s.boy.h := by
  unfold boyCheck; split
  · rw [triggerEarthquake_boy]; exact ⟨rfl, rfl, rfl, rfl⟩
  · exact ⟨rfl, rfl, rfl, rfl⟩

theorem boyCheck_score (s : GameState) (e : Explosion) (now : ℚ) :
    (boyCheck s e now).2.score = s.score := by
  unfold boyCheck; split
  · exact triggerEarthquake_score _ _
  · rfl

theorem boyCheck_scorePulse (s : GameState) (e : Explosion) (now : ℚ) :
    (boyCheck s e now).2.scorePulse = s.scorePulse := by
  unfold boyCheck; split
  · exact triggerEarthquake_scorePulse _ _
  · rfl

theorem boyCheck_popups (s : GameState) (e : Explosion) (now : ℚ) :
    (boyCheck s e now).2.popups = s.popups := by
  unfold boyCheck; split
  · exact triggerEarthquake_popups _ _
  · rfl

theorem boyCheck_nextEid (s : GameState) (e : Explosion) (now : ℚ) :
    (boyCheck s e now).2.nextEid = s.nextEid := by
  unfold boyCheck; split
  · exact triggerEarthquake_nextEid _ _
  · rfl

theorem boyCheck_explosions (s : GameState) (e : Explosion) (now : ℚ) :
    (boyCheck s e now).2.explosions = s.explosions := by
  unfold boyCheck; split
  · exact triggerEarthquake_explosions _ _
  · rfl

theorem boyCheck_tasks (s : GameState) (e : Explosion) (now : ℚ) :
    ∃ ts, (boyCheck s e now).2.tasks = s.tasks ++ ts := by
  unfold boyCheck; split
  · exact triggerEarthquake_tasks _ _
  · exact ⟨[], (List.append_nil _).symm⟩

/-- The first component of `boyCheck` can only flip `hitBoy`. -/
theorem boyCheck_fst (s : GameState) (e : Explosion) (now : ℚ) :
    (boyCheck s e now).1.eid = e.eid ∧ (boyCheck s e now).1.x = e.x ∧
      (boyCheck s e now).1.y = e.y ∧ (boyCheck s e now).1.r = e.r ∧
      (boyCheck s e now).1.maxR = e.maxR ∧ (boyCheck s e now).1.alive = e.alive ∧
      (boyCheck s e now).1.createdAt = e.createdAt ∧
      (boyCheck s e now).1.lifeMs = e.lifeMs ∧
      (boyCheck s e now).1.hitBomber = e.hitBomber := by
  unfold boyCheck; split
  · exact ⟨rfl, rfl, rfl, rfl, rfl, rfl, rfl, rfl, rfl⟩
  · exact ⟨rfl, rfl, rfl, rfl, rfl, rfl, rfl, rfl, rfl⟩

theorem bomberFire_score (s : GameState) (now : ℚ) :
    (bomberFire s now).score = s.score + 1 := rfl

theorem bomberFire_bomber_alive (s : GameState) (now : ℚ) :
    (bomberFire s now).bomber.alive = false := rfl

theorem bomberFire_explosions (s : GameState) (now : ℚ) :
    (bomberFire s now).explosions = s.explosions := rfl

theorem bomberFire_boy (s : GameState) (now : ℚ) :
    (bomberFire s now).boy = s.boy := rfl

theorem bomberFire_nextEid (s : GameState) (now : ℚ) :
    (bomberFire s now).nextEid = s.nextEid + 1 := rfl

/-! ### Structural lemmas about the collision loop -/

/-- The result of the collision loop always starts with the already-processed
prefix. -/
theorem collide_explosions_prefix (now : ℚ) (fuel : ℕ) (s : GameState)
    (done todo : List Explosion) :
    ∃ tail, (collideAux now fuel s done todo).explosions = done ++ tail := by
  induction fuel generalizing s done todo with
  | zero => exact ⟨todo, rfl⟩
  | succ fuel ih =>
    cases todo with
    | nil => exact ⟨[], (List.append_nil _).symm⟩
    | cons e rest =>
      simp only [collideAux]
      split
      · obtain ⟨t, ht⟩ := ih s (done ++ [e]) rest
        exact ⟨e :: t, by rw [ht, List.append_assoc]; rfl⟩
      · split
        · obtain ⟨t, ht⟩ := ih _ (done ++ [(boyCheck (bomberFire s now) { e with hitBomber := true } now).1]) _
          exact ⟨_ :: t, by rw [ht, List.append_assoc]; rfl⟩
        · obtain ⟨t, ht⟩ := ih _ (done ++ [(boyCheck s e now).1]) rest
          exact ⟨_ :: t, by rw [ht, List.append_assoc]; rfl⟩

/-- The collision loop never decreases the score. -/
theorem collide_score_mono (now : ℚ) (fuel : ℕ) (s : GameState)
    (done todo : List Explosion) :
    s.score ≤ (collideAux now fuel s done todo).score := by
  induction fuel generalizing s done todo with
  | zero => exact le_refl _
  | succ fuel ih =>
    cases todo with
    | nil => exact le_refl _
    | cons e rest =>
      simp only [collideAux]
      split
      · exact ih s (done ++ [e]) rest
      · split
        · refine le_trans ?_ (ih _ _ _)
          rw [boyCheck_score, bomberFire_score]
          exact Nat.le_succ _
        · refine le_trans ?_ (ih _ _ _)
          rw [boyCheck_score]

/-- The collision loop never decreases the fresh-id counter. -/
theorem collide_nextEid_mono (now : ℚ) (fuel : ℕ) (s : GameState)
    (done todo : List Explosion) :
    s.nextEid ≤ (collideAux now fuel s done todo).nextEid := by
  induction fuel generalizing s done todo with
  | zero => exact le_refl _
  | succ fuel ih =>
    cases todo with
    | nil => exact le_refl _
    | cons e rest =>
      simp only [collideAux]
      split
      · exact ih s (done ++ [e]) rest
      · split
        · refine le_trans ?_ (ih _ _ _)
          rw [boyCheck_nextEid, bomberFire_nextEid]
          exact Nat.le_succ _
        · refine le_trans ?_ (ih _ _ _)
          rw [boyCheck_nextEid]

/-- The collision loop only ever appends to the task queue. -/
theorem collide_tasks (now : ℚ) (fuel : ℕ) (s : GameState)
    (done todo : List Explosion) :
    ∃ ts, (collideAux now fuel s done todo).tasks = s.tasks ++ ts := by
  induction fuel generalizing s done todo with
  | zero => exact ⟨[], (List.append_nil _).symm⟩
  | succ fuel ih =>
    cases todo with
    | nil => exact ⟨[], (List.append_nil _).symm⟩
    | cons e rest =>
      simp only [collideAux]
      split
      · exact ih s (done ++ [e]) rest
      · split
        · obtain ⟨t1, ht1⟩ := boyCheck_tasks (bomberFire s now) { e with hitBomber := true } now
          obtain ⟨t2, ht2⟩ := ih (boyCheck (bomberFire s now) { e with hitBomber := true } now).2
            (done ++ [(boyCheck (bomberFire s now) { e with hitBomber := true } now).1])
            (rest ++ [mkExplosion s.nextEid s.bomber.x s.bomber.y now])
          refine ⟨[(now + 1200, TaskKind.respawnBomber)] ++ t1 ++ t2, ?_⟩
          rw [ht2, ht1]
          show s.tasks ++ [(now + 1200, TaskKind.respawnBomber)] ++ t1 ++ t2 = _
          simp [List.append_assoc]
        · obtain ⟨t1, ht1⟩ := boyCheck_tasks s e now
          obtain ⟨t2, ht2⟩ := ih (boyCheck s e now).2 (done ++ [(boyCheck s e now).1]) rest
          refine ⟨t1 ++ t2, ?_⟩
          rw [ht2, ht1, List.append_assoc]

theorem boyCheck_neg {s : GameState} {e : Explosion} (now : ℚ) (h : ¬ yCond s e) :
    boyCheck s e now = (e, s) := by
  unfold boyCheck; rw [if_neg h]

/-- Core equality of explosion records: everything except the two hit flags. -/
def rCore (e e2 : Explosion) : Prop :=
  e2.eid = e.eid ∧ e2.x = e.x ∧ e2.y = e.y ∧ e2.r = e.r ∧ e2.maxR = e.maxR ∧
    e2.alive = e.alive ∧ e2.createdAt = e.createdAt ∧ e2.lifeMs = e.lifeMs

/-- Core equality plus an unchanged bomber flag: the explosion can have
gained at most the `hitBoy` flag. -/
def boyOnly (e e2 : Explosion) : Prop := rCore e e2 ∧ e2.hitBomber = e.hitBomber

theorem rCore_refl (e : Explosion) : rCore e e :=
  ⟨rfl, rfl, rfl, rfl, rfl, rfl, rfl, rfl⟩

theorem boyOnly_refl (e : Explosion) : boyOnly e e := ⟨rCore_refl e, rfl⟩

theorem boyCheck_fst_boyOnly (s : GameState) (e : Explosion) (now : ℚ) :
    boyOnly e (boyCheck s e now).1 := by
  obtain ⟨h1, h2, h3, h4, h5, h6, h7, h8, h9⟩ := boyCheck_fst s e now
  exact ⟨⟨h1, h2, h3, h4, h5, h6, h7, h8⟩, h9⟩

/-- The bomber-hit conditions agree on states with the same bomber. -/
theorem bCond_congr {s s2 : GameState} (h : s2.bomber = s.bomber) (e : Explosion) :
    bCond s2 e ↔ bCond s e := by
  unfold bCond; rw [h]

/-- The boy-hit conditions agree on states with the same boy. -/
theorem yCond_congr {s s2 : GameState} (h : s2.boy = s.boy) (e : Explosion) :
    yCond s2 e ↔ yCond s e := by
  unfold yCond; rw [h]

/-- If no element of the work list can hit the bomber or the boy, the
collision loop does nothing at all. -/
theorem collide_noop (now : ℚ) (fuel : ℕ) (s : GameState) (done todo : List Explosion)
    (hfuel : todo.length ≤ fuel)
    (hsafe : ∀ e ∈ todo, ¬ bCond s e ∧ ¬ yCond s e) :
    collideAux now fuel s done todo = { s with explosions := done ++ todo } := by
  induction fuel generalizing done todo with
  | zero => rfl
  | succ fuel ih =>
    cases todo with
    | nil => simp only [collideAux, List.append_nil]
    | cons e rest =>
      have hsafe_e := hsafe e (List.mem_cons_self e rest)
      have hsafe_rest : ∀ x ∈ rest, ¬ bCond s x ∧ ¬ yCond s x :=
        fun x hx => hsafe x (List.mem_cons_of_mem e hx)
      have hfuel_rest : rest.length ≤ fuel := by
        simpa using Nat.le_of_succ_le_succ hfuel
      simp only [collideAux]
      split
      · rw [ih (done ++ [e]) rest hfuel_rest hsafe_rest, List.append_assoc]
        rfl
      · rw [if_neg hsafe_e.1, boyCheck_neg now hsafe_e.2]
        rw [ih (done ++ [e]) rest hfuel_rest hsafe_rest, List.append_assoc]
        rfl

/-- If no element of the work list can hit the bomber, the loop leaves the
bomber, score, pulse, popups and id counter alone and changes the explosion
list by at most flipping `hitBoy` flags. -/
theorem collide_bomber_safe (now : ℚ) (fuel : ℕ) (s : GameState)
    (done todo : List Explosion)
    (hsafe : ∀ e ∈ todo, ¬ bCond s e) :
    (collideAux now fuel s done todo).bomber = s.bomber ∧
      (collideAux now fuel s done todo).score = s.score ∧
      (collideAux now fuel s done todo).scorePulse = s.scorePulse ∧
      (collideAux now fuel s done todo).popups = s.popups ∧
      (collideAux now fuel s done todo).nextEid = s.nextEid ∧
      ∃ l, (collideAux now fuel s done todo).explosions = done ++ l ∧
        List.Forall₂ boyOnly todo l := by
  induction fuel generalizing s done todo with
  | zero =>
    refine ⟨rfl, rfl, rfl, rfl, rfl, todo, rfl, ?_⟩
    exact List.forall₂_same.mpr fun e _ => boyOnly_refl e
  | succ fuel ih =>
    cases todo with
    | nil => exact ⟨rfl, rfl, rfl, rfl, rfl, [], (List.append_nil _).symm, List.Forall₂.nil⟩
    | cons e rest =>
      have hsafe_e := hsafe e (List.mem_cons_self e rest)
      have hsafe_rest : ∀ x ∈ rest, ¬ bCond s x :=
        fun x hx => hsafe x (List.mem_cons_of_mem e hx)
      simp only [collideAux]
      by_cases ha : e.alive = false
      · rw [if_pos ha]
        obtain ⟨h1, h2, h3, h4, h5, l, hl, hf⟩ := ih s (done ++ [e]) rest hsafe_rest
        exact ⟨h1, h2, h3, h4, h5, e :: l,
          by rw [hl, List.append_assoc]; rfl, List.Forall₂.cons (boyOnly_refl e) hf⟩
      · rw [if_neg ha, if_neg hsafe_e]
        have hb := boyCheck_bomber s e now
        have hsafe_rest2 : ∀ x ∈ rest, ¬ bCond (boyCheck s e now).2 x :=
          fun x hx h => hsafe_rest x hx ((bCond_congr hb x).mp h)
        obtain ⟨h1, h2, h3, h4, h5, l, hl, hf⟩ :=
          ih (boyCheck s e now).2 (done ++ [(boyCheck s e now).1]) rest hsafe_rest2
        refine ⟨?_, ?_, ?_, ?_, ?_, (boyCheck s e now).1 :: l, ?_, ?_⟩
        · rw [h1, hb]
        · rw [h2, boyCheck_score]
        · rw [h3, boyCheck_scorePulse]
        · rw [h4, boyCheck_popups]
        · rw [h5, boyCheck_nextEid]
        · rw [hl, List.append_assoc]; rfl
        · exact List.Forall₂.cons (boyCheck_fst_boyOnly s e now) hf

theorem flagCount_nil : flagCount [] = 0 := rfl

theorem flagCount_append (l1 l2 : List Explosion) :
    flagCount (l1 ++ l2) = flagCount l1 + flagCount l2 := by
  simp [flagCount, List.filter_append]

theorem flagCount_cons (e : Explosion) (l : List Explosion) :
    flagCount (e :: l) = (if e.hitBomber then 1 else 0) + flagCount l := by
  by_cases h : e.hitBomber <;> simp [flagCount, List.filter_cons, h, Nat.add_comm]

theorem ite_flag_true : (if (true : Bool) = true then (1:ℕ) else 0) = 1 := rfl

theorem ite_flag_false : (if (false : Bool) = true then (1:ℕ) else 0) = 0 := rfl

/-- Score bookkeeping of the collision loop: the score grows by exactly the
number of explosions whose `hitBomber` flag flips from `false` to `true`.
Stated as: new score plus old flag count equals old score plus new flag
count. -/
theorem collide_score_flag (now : ℚ) (fuel : ℕ) (s : GameState)
    (done todo : List Explosion)
    (hfuel : todo.length + (if s.bomber.alive = true then 1 else 0) ≤ fuel) :
    (collideAux now fuel s done todo).score + flagCount done + flagCount todo
      = s.score + flagCount (collideAux now fuel s done todo).explosions := by
  induction fuel generalizing s done todo with
  | zero =>
    have h0 : todo.length = 0 := by omega
    rw [List.eq_nil_of_length_eq_zero h0]
    show s.score + flagCount done + flagCount [] = s.score + flagCount (done ++ [])
    rw [List.append_nil, flagCount_nil]
    omega
  | succ fuel ih =>
    cases todo with
    | nil =>
      show s.score + flagCount done + flagCount [] = s.score + flagCount done
      rw [flagCount_nil]
      omega
    | cons e rest =>
      simp only [collideAux]
      by_cases ha : e.alive = false
      · rw [if_pos ha]
        have := ih s (done ++ [e]) rest (by simp only [List.length_cons] at hfuel; omega)
        rw [flagCount_append, flagCount_cons, flagCount_nil] at this
        rw [flagCount_cons]
        omega
      · rw [if_neg ha]
        by_cases hb : bCond s e
        · rw [if_pos hb]
          have hsb1 : (if s.bomber.alive = true then (1:ℕ) else 0) = 1 := by
            rw [hb.1]; exact ite_flag_true
          rw [hsb1] at hfuel
          simp only [List.length_cons] at hfuel
          set s2 := (boyCheck (bomberFire s now) { e with hitBomber := true } now).2 with hs2
          have halive2 : s2.bomber.alive = false := by
            rw [hs2, boyCheck_bomber]; rfl
          have hfuel2 : (rest ++ [mkExplosion s.nextEid s.bomber.x s.bomber.y now]).length
              + (if s2.bomber.alive = true then 1 else 0) ≤ fuel := by
            rw [halive2, ite_flag_false]
            simp only [List.length_append, List.length_cons, List.length_nil]
            omega
          have := ih s2
            (done ++ [(boyCheck (bomberFire s now) { e with hitBomber := true } now).1])
            (rest ++ [mkExplosion s.nextEid s.bomber.x s.bomber.y now]) hfuel2
          rw [flagCount_append, flagCount_append, flagCount_cons, flagCount_nil,
            flagCount_cons, flagCount_nil] at this
          have hp1 : (boyCheck (bomberFire s now) { e with hitBomber := true } now).1.hitBomber
              = true := by
            have h9 := (boyCheck_fst (bomberFire s now) { e with hitBomber := true } now).2.2.2.2.2.2.2.2
            rw [h9]
          have hnew : (mkExplosion s.nextEid s.bomber.x s.bomber.y now).hitBomber = false := rfl
          have hsc : s2.score = s.score + 1 := by
            rw [hs2, boyCheck_score, bomberFire_score]
          rw [hp1, hnew, hsc, ite_flag_true, ite_flag_false] at this
          rw [flagCount_cons, hb.2.2.1, ite_flag_false]
          omega
        · rw [if_neg hb]
          have hbm := boyCheck_bomber s e now
          have hfuel2 : rest.length + (if (boyCheck s e now).2.bomber.alive = true then 1 else 0)
              ≤ fuel := by
            rw [hbm]
            simp only [List.length_cons] at hfuel
            omega
          have := ih (boyCheck s e now).2 (done ++ [(boyCheck s e now).1]) rest hfuel2
          rw [flagCount_append, flagCount_cons, flagCount_nil, boyCheck_score] at this
          have hp1 : (boyCheck s e now).1.hitBomber = e.hitBomber :=
            (boyCheck_fst s e now).2.2.2.2.2.2.2.2
          rw [hp1] at this
          rw [flagCount_cons]
          omega

/-- Once an explosion id is flagged for the bomber, every explosion carrying
that id after the collision loop is still flagged (the loop never clears
`hitBomber`, and freshly spawned explosions get new ids). -/
theorem collide_flag_persist (now : ℚ) (fuel : ℕ) (s : GameState)
    (done todo : List Explosion) (i : ℕ) (hi : i < s.nextEid)
    (hdone : ∀ e ∈ done, e.eid = i → e.hitBomber = true)
    (htodo : ∀ e ∈ todo, e.eid = i → e.hitBomber = true) :
    ∀ e2 ∈ (collideAux now fuel s done todo).explosions,
      e2.eid = i → e2.hitBomber = true := by
  induction fuel generalizing s done todo with
  | zero =>
    intro e2 hmem
    rcases List.mem_append.mp hmem with h | h
    · exact hdone e2 h
    · exact htodo e2 h
  | succ fuel ih =>
    cases todo with
    | nil => exact fun e2 hmem => hdone e2 hmem
    | cons e rest =>
      have he := htodo e (List.mem_cons_self e rest)
      have hrest : ∀ x ∈ rest, x.eid = i → x.hitBomber = true :=
        fun x hx => htodo x (List.mem_cons_of_mem e hx)
      simp only [collideAux]
      by_cases ha : e.alive = false
      · rw [if_pos ha]
        refine ih s (done ++ [e]) rest hi ?_ hrest
        intro x hx
        rcases List.mem_append.mp hx with h | h
        · exact hdone x h
        · rw [List.mem_singleton.mp h]; exact he
      · rw [if_neg ha]
        by_cases hb : bCond s e
        · rw [if_pos hb]
          set p := boyCheck (bomberFire s now) { e with hitBomber := true } now with hp
          have hi2 : i < p.2.nextEid := by
            rw [hp, boyCheck_nextEid, bomberFire_nextEid]; omega
          refine ih p.2 (done ++ [p.1]) (rest ++ [mkExplosion s.nextEid s.bomber.x s.bomber.y now])
            hi2 ?_ ?_
          · intro x hx
            rcases List.mem_append.mp hx with h | h
            · exact hdone x h
            · rw [List.mem_singleton.mp h]
              intro _
              have := (boyCheck_fst (bomberFire s now) { e with hitBomber := true } now).2.2.2.2.2.2.2.2
              rw [hp]; rw [this]
          · intro x hx
            rcases List.mem_append.mp hx with h | h
            · exact hrest x h
            · rw [List.mem_singleton.mp h]
              intro heid
              exact absurd heid (by show s.nextEid ≠ i; omega)
        · rw [if_neg hb]
          have hi2 : i < (boyCheck s e now).2.nextEid := by rw [boyCheck_nextEid]; exact hi
          refine ih (boyCheck s e now).2 (done ++ [(boyCheck s e now).1]) rest hi2 ?_ hrest
          intro x hx
          rcases List.mem_append.mp hx with h | h
          · exact hdone x h
          · rw [List.mem_singleton.mp h]
            intro heid
            have heq := (boyCheck_fst s e now).2.2.2.2.2.2.2.2
            rw [heq]
            refine he ?_
            have h1 := (boyCheck_fst s e now).1
            rw [← h1]
            exact heid

theorem getElem?_some_lt {α : Type} {l : List α} {i : ℕ} {x : α} (h : l[i]? = some x) :
    i < l.length := by
  by_contra hc
  rw [List.getElem?_eq_none (by omega)] at h
  exact Option.noConfusion h

theorem getElem?_append_length {α : Type} (l1 : List α) (x : α) (l2 : List α) :
    (l1 ++ x :: l2)[l1.length]? = some x := by
  rw [List.getElem?_append_right (le_refl _)]
  simp

/-- Positional structure of the collision loop: the element at position `k`
of the work list ends up at position `done.length + k` of the result, with
all fields except the hit flags unchanged.  In particular the hit tests
never change an explosion's radius or position. -/
theorem collide_pos (now : ℚ) (fuel : ℕ) (s : GameState) (done todo : List Explosion) :
    ∀ k e, todo[k]? = some e →
      ∃ e2, (collideAux now fuel s done todo).explosions[done.length + k]? = some e2 ∧
        rCore e e2 := by
  induction fuel generalizing s done todo with
  | zero =>
    intro k e hk
    refine ⟨e, ?_, rCore_refl e⟩
    show (done ++ todo)[done.length + k]? = some e
    rw [List.getElem?_append_right (by omega)]
    simpa using hk
  | succ fuel ih =>
    cases todo with
    | nil => intro k e hk; exact absurd hk (by simp)
    | cons e0 rest =>
      intro k e hk
      simp only [collideAux]
      by_cases ha : e0.alive = false
      · rw [if_pos ha]
        cases k with
        | zero =>
          rw [List.getElem?_cons_zero] at hk
          obtain rfl : e0 = e := Option.some.inj hk
          obtain ⟨tail, htail⟩ := collide_explosions_prefix now fuel s (done ++ [e0]) rest
          refine ⟨e0, ?_, rCore_refl e0⟩
          rw [htail, List.append_assoc, Nat.add_zero]
          exact getElem?_append_length done e0 (tail)
        | succ k =>
          rw [List.getElem?_cons_succ] at hk
          obtain ⟨e2, he2, hc⟩ := ih s (done ++ [e0]) rest k e hk
          refine ⟨e2, ?_, hc⟩
          rw [← he2, List.length_append, List.length_cons, List.length_nil]
          congr 1
          omega
      · rw [if_neg ha]
        by_cases hb : bCond s e0
        · rw [if_pos hb]
          cases k with
          | zero =>
            rw [List.getElem?_cons_zero] at hk
            obtain rfl : e0 = e := Option.some.inj hk
            obtain ⟨tail, htail⟩ := collide_explosions_prefix now fuel
              (boyCheck (bomberFire s now) { e0 with hitBomber := true } now).2
              (done ++ [(boyCheck (bomberFire s now) { e0 with hitBomber := true } now).1])
              (rest ++ [mkExplosion s.nextEid s.bomber.x s.bomber.y now])
            refine ⟨(boyCheck (bomberFire s now) { e0 with hitBomber := true } now).1, ?_, ?_⟩
            · rw [htail, List.append_assoc, Nat.add_zero]
              exact getElem?_append_length done _ tail
            · obtain ⟨h1, h2, h3, h4, h5, h6, h7, h8, _⟩ :=
                boyCheck_fst (bomberFire s now) { e0 with hitBomber := true } now
              exact ⟨h1, h2, h3, h4, h5, h6, h7, h8⟩
          | succ k =>
            rw [List.getElem?_cons_succ] at hk
            have hk2 : (rest ++ [mkExplosion s.nextEid s.bomber.x s.bomber.y now])[k]? = some e := by
              rw [List.getElem?_append_left (getElem?_some_lt hk)]
              exact hk
            obtain ⟨e2, he2, hc⟩ := ih _ (done ++ [(boyCheck (bomberFire s now)
              { e0 with hitBomber := true } now).1]) _ k e hk2
            refine ⟨e2, ?_, hc⟩
            rw [← he2, List.length_append, List.length_cons, List.length_nil]
            congr 1
            omega
        · rw [if_neg hb]
          cases k with
          | zero =>
            rw [List.getElem?_cons_zero] at hk
            obtain rfl : e0 = e := Option.some.inj hk
            obtain ⟨tail, htail⟩ := collide_explosions_prefix now fuel
              (boyCheck s e0 now).2 (done ++ [(boyCheck s e0 now).1]) rest
            refine ⟨(boyCheck s e0 now).1, ?_, ?_⟩
            · rw [htail, List.append_assoc, Nat.add_zero]
              exact getElem?_append_length done _ tail
            · obtain ⟨h1, h2, h3, h4, h5, h6, h7, h8, _⟩ := boyCheck_fst s e0 now
              exact ⟨h1, h2, h3, h4, h5, h6, h7, h8⟩
          | succ k =>
            rw [List.getElem?_cons_succ] at hk
            obtain ⟨e2, he2, hc⟩ := ih _ (done ++ [(boyCheck s e0 now).1]) rest k e hk
            refine ⟨e2, ?_, hc⟩
            rw [← he2, List.length_append, List.length_cons, List.length_nil]
            congr 1
            omega

/-- The collision loop never moves the boy. -/
theorem collide_boy_pos (now : ℚ) (fuel : ℕ) (s : GameState) (done todo : List Explosion) :
    (collideAux now fuel s done todo).boy.x = s.boy.x ∧
      (collideAux now fuel s done todo).boy.y = s.boy.y ∧
      (collideAux now fuel s done todo).boy.w = s.boy.w ∧
      (collideAux now fuel s done todo).boy.h = s.boy.h := by
  induction fuel generalizing s done todo with
  | zero => exact ⟨rfl, rfl, rfl, rfl⟩
  | succ fuel ih =>
    cases todo with
    | nil => exact ⟨rfl, rfl, rfl, rfl⟩
    | cons e rest =>
      simp only [collideAux]
      by_cases ha : e.alive = false
      · rw [if_pos ha]; exact ih s (done ++ [e]) rest
      · rw [if_neg ha]
        by_cases hb : bCond s e
        · rw [if_pos hb]
          obtain ⟨h1, h2, h3, h4⟩ := ih (boyCheck (bomberFire s now) { e with hitBomber := true } now).2
            (done ++ [(boyCheck (bomberFire s now) { e with hitBomber := true } now).1])
            (rest ++ [mkExplosion s.nextEid s.bomber.x s.bomber.y now])
          obtain ⟨g1, g2, g3, g4⟩ := boyCheck_boy_pos (bomberFire s now) { e with hitBomber := true } now
          rw [h1, h2, h3, h4, g1, g2, g3, g4]
          exact ⟨rfl, rfl, rfl, rfl⟩
        · rw [if_neg hb]
          obtain ⟨h1, h2, h3, h4⟩ := ih (boyCheck s e now).2 (done ++ [(boyCheck s e now).1]) rest
          obtain ⟨g1, g2, g3, g4⟩ := boyCheck_boy_pos s e now
          rw [h1, h2, h3, h4, g1, g2, g3, g4]
          exact ⟨rfl, rfl, rfl, rfl⟩

theorem forall₂_getElem? {α β : Type} {R : α → β → Prop} {l1 : List α} {l2 : List β}
    (h : List.Forall₂ R l1 l2) :
    ∀ (k : ℕ) (x : α), l1[k]? = some x → ∃ y, l2[k]? = some y ∧ R x y := by
  induction h with
  | nil => intro k x hx; exact absurd hx (by simp)
  | cons hr _ ih =>
    intro k x hx
    cases k with
    | zero =>
      rw [List.getElem?_cons_zero] at hx ⊢
      exact ⟨_, rfl, Option.some.inj hx ▸ hr⟩
    | succ k =>
      rw [List.getElem?_cons_succ] at hx ⊢
      exact ih k x hx

/-- Full effect of the collision loop when the element at index `i` of the
work list is the first that can hit the live bomber: the score goes up by
one, the pulse fires, the "+1" popup is pushed at the bomber, the bomber
dies, the respawn is scheduled, the hitting explosion (and only it) gets its
`hitBomber` flag, and exactly one secondary explosion is appended at the
bomber's position. -/
theorem collide_first_hit (now : ℚ) (fuel : ℕ) (s : GameState)
    (done todo : List Explosion) (i : ℕ) (ex : Explosion)
    (hfuel : i < fuel)
    (hB : s.bomber.alive = true)
    (hi : todo[i]? = some ex)
    (halive : ex.alive = true) (hflag : ex.hitBomber = false)
    (hhit : circleHit ex s.bomber.x s.bomber.y 40)
    (hfirst : ∀ j, j < i → ∀ e, todo[j]? = some e →
      ¬(e.alive = true ∧ e.hitBomber = false ∧ circleHit e s.bomber.x s.bomber.y 40)) :
    (collideAux now fuel s done todo).score = s.score + 1 ∧
      (collideAux now fuel s done todo).scorePulse = 1 ∧
      (collideAux now fuel s done todo).popups
        = s.popups ++ [⟨s.bomber.x, s.bomber.y - 20, "+1", 0, 900⟩] ∧
      (collideAux now fuel s done todo).bomber.alive = false ∧
      (now + 1200, TaskKind.respawnBomber) ∈ (collideAux now fuel s done todo).tasks ∧
      (collideAux now fuel s done todo).explosions.length
        = done.length + todo.length + 1 ∧
      (∃ e1, (collideAux now fuel s done todo).explosions[done.length + i]? = some e1 ∧
        e1.hitBomber = true ∧ rCore ex e1) ∧
      (∃ e2, (collideAux now fuel s done todo).explosions[done.length + todo.length]?
          = some e2 ∧
        e2.eid = s.nextEid ∧ e2.x = s.bomber.x ∧ e2.y = s.bomber.y ∧ e2.r = 0 ∧
        e2.maxR = 140 ∧ e2.alive = true ∧ e2.createdAt = now ∧ e2.lifeMs = 1200 ∧
        e2.hitBomber = false) := by
  induction fuel generalizing s done todo i with
  | zero => exact absurd hfuel (Nat.not_lt_zero i)
  | succ fuel ih =>
    cases todo with
    | nil => exact absurd hi (by simp)
    | cons e0 rest =>
      cases i with
      | zero =>
        rw [List.getElem?_cons_zero] at hi
        obtain rfl : e0 = ex := Option.some.inj hi
        have hbc : bCond s e0 := ⟨hB, halive, hflag, hhit⟩
        simp only [collideAux]
        rw [if_neg (by simp [halive]), if_pos hbc]
        set s2 := (boyCheck (bomberFire s now) { e0 with hitBomber := true } now).2 with hs2
        set p1 := (boyCheck (bomberFire s now) { e0 with hitBomber := true } now).1 with hp1
        have hb2 : s2.bomber = (bomberFire s now).bomber := boyCheck_bomber _ _ _
        have hsafe : ∀ x ∈ rest ++ [mkExplosion s.nextEid s.bomber.x s.bomber.y now],
            ¬ bCond s2 x := by
          intro x _ hc
          have h1 := hc.1
          rw [hb2, bomberFire_bomber_alive] at h1
          exact absurd h1 (by decide)
        obtain ⟨g1, g2, g3, g4, g5, l, hl, hf⟩ :=
          collide_bomber_safe now fuel s2 (done ++ [p1])
            (rest ++ [mkExplosion s.nextEid s.bomber.x s.bomber.y now]) hsafe
        have hlen : l.length = rest.length + 1 := by
          have := hf.length_eq
          simpa using this.symm
        have hsc : s2.score = s.score + 1 := by
          rw [hs2, boyCheck_score, bomberFire_score]
        have hsp : s2.scorePulse = 1 := by rw [hs2, boyCheck_scorePulse]; rfl
        have hpo : s2.popups = s.popups ++ [⟨s.bomber.x, s.bomber.y - 20, "+1", 0, 900⟩] := by
          rw [hs2, boyCheck_popups]; rfl
        refine ⟨?_, ?_, ?_, ?_, ?_, ?_, ?_, ?_⟩
        · rw [g2, hsc]
        · rw [g3, hsp]
        · rw [g4, hpo]
        · rw [g1, hb2]; rfl
        · obtain ⟨ts, hts⟩ := collide_tasks now fuel s2 (done ++ [p1])
            (rest ++ [mkExplosion s.nextEid s.bomber.x s.bomber.y now])
          rw [hts]
          refine List.mem_append.mpr (Or.inl ?_)
          obtain ⟨t1, ht1⟩ := boyCheck_tasks (bomberFire s now) { e0 with hitBomber := true } now
          rw [hs2, ht1]
          refine List.mem_append.mpr (Or.inl ?_)
          show _ ∈ s.tasks ++ [(now + 1200, TaskKind.respawnBomber)]
          exact List.mem_append.mpr (Or.inr (List.mem_singleton.mpr rfl))
        · rw [hl]
          simp only [List.length_append, List.length_cons, List.length_nil, hlen]
          omega
        · refine ⟨p1, ?_, ?_, ?_⟩
          · rw [hl, List.append_assoc, Nat.add_zero]
            exact getElem?_append_length done p1 l
          · rw [hp1]
            exact (boyCheck_fst (bomberFire s now) { e0 with hitBomber := true } now).2.2.2.2.2.2.2.2
          · obtain ⟨h1, h2, h3, h4, h5, h6, h7, h8, _⟩ :=
              boyCheck_fst (bomberFire s now) { e0 with hitBomber := true } now
            exact ⟨h1, h2, h3, h4, h5, h6, h7, h8⟩
        · have hnewEx : (rest ++ [mkExplosion s.nextEid s.bomber.x s.bomber.y now])[rest.length]?
              = some (mkExplosion s.nextEid s.bomber.x s.bomber.y now) :=
            getElem?_append_length rest _ []
          obtain ⟨e2, he2, hcore, hfb⟩ := forall₂_getElem? hf rest.length _ hnewEx
          refine ⟨e2, ?_, ?_, ?_, ?_, ?_, ?_, ?_, ?_, ?_, ?_⟩
          · rw [hl, List.append_assoc]
            rw [List.getElem?_append_right (Nat.le_add_right _ _)]
            have hidx : done.length + (e0 :: rest).length - done.length = rest.length + 1 := by
              simp only [List.length_cons]; omega
            rw [hidx]
            show (p1 :: l)[rest.length + 1]? = some e2
            rw [List.getElem?_cons_succ]
            exact he2
          · exact hcore.1
          · exact hcore.2.1
          · exact hcore.2.2.1
          · exact hcore.2.2.2.1
          · exact hcore.2.2.2.2.1
          · exact hcore.2.2.2.2.2.1
          · exact hcore.2.2.2.2.2.2.1
          · exact hcore.2.2.2.2.2.2.2
          · exact hfb
      | succ j =>
        rw [List.getElem?_cons_succ] at hi
        have hnotc := hfirst 0 (Nat.succ_pos j) e0 (List.getElem?_cons_zero)
        simp only [collideAux]
        by_cases ha : e0.alive = false
        · rw [if_pos ha]
          have hfirst2 : ∀ j2, j2 < j → ∀ e, rest[j2]? = some e →
              ¬(e.alive = true ∧ e.hitBomber = false ∧ circleHit e s.bomber.x s.bomber.y 40) := by
            intro j2 hj2 e he
            exact hfirst (j2 + 1) (by omega) e (by rw [List.getElem?_cons_succ]; exact he)
          obtain ⟨c1, c2, c3, c4, c5, c6, c7, c8⟩ :=
            ih s (done ++ [e0]) rest j (by omega) hB hi hhit hfirst2
          refine ⟨c1, c2, c3, c4, c5, ?_, ?_, ?_⟩
          · rw [c6]; simp only [List.length_append, List.length_cons, List.length_nil]; omega
          · obtain ⟨e1, he1, hx⟩ := c7
            refine ⟨e1, ?_, hx⟩
            rw [← he1, List.length_append, List.length_cons, List.length_nil]
            congr 1
            omega
          · obtain ⟨e2, he2, hx⟩ := c8
            refine ⟨e2, ?_, hx⟩
            rw [← he2]
            congr 1
            simp only [List.length_append, List.length_cons, List.length_nil]
            omega
        · rw [if_neg ha]
          have hbc : ¬ bCond s e0 := fun hc => hnotc ⟨hc.2.1, hc.2.2.1, hc.2.2.2⟩
          rw [if_neg hbc]
          set s2 := (boyCheck s e0 now).2 with hs2
          have hb2 : s2.bomber = s.bomber := boyCheck_bomber _ _ _
          have hfirst2 : ∀ j2, j2 < j → ∀ e, rest[j2]? = some e →
              ¬(e.alive = true ∧ e.hitBomber = false ∧ circleHit e s2.bomber.x s2.bomber.y 40) := by
            intro j2 hj2 e he
            rw [hb2]
            exact hfirst (j2 + 1) (by omega) e (by rw [List.getElem?_cons_succ]; exact he)
          obtain ⟨c1, c2, c3, c4, c5, c6, c7, c8⟩ :=
            ih s2 (done ++ [(boyCheck s e0 now).1]) rest j (by omega)
              (by rw [hb2]; exact hB) hi (by rw [hb2]; exact hhit) hfirst2
          refine ⟨?_, c2, ?_, ?_, c5, ?_, ?_, ?_⟩
          · rw [c1, hs2, boyCheck_score]
          · rw [c3, hs2, boyCheck_popups, hb2]
          · exact c4
          · rw [c6]; simp only [List.length_append, List.length_cons, List.length_nil]; omega
          · obtain ⟨e1, he1, hx⟩ := c7
            refine ⟨e1, ?_, hx⟩
            rw [← he1, List.length_append, List.length_cons, List.length_nil]
            congr 1
            omega
          · obtain ⟨e2, he2, hx1, hx⟩ := c8
            refine ⟨e2, ?_, ?_, ?_⟩
            · rw [← he2]
              congr 1
              simp only [List.length_append, List.length_cons, List.length_nil]
              omega
            · rw [hx1, hs2, boyCheck_nextEid]
            · rw [hb2] at hx
              exact hx

/-- Fuel irrelevance: any fuel that dominates the loop measure
(`todo.length`, plus one for the single possible mid-loop push while the
bomber is alive) computes the same result, so `collisionPhase`'s choice of
`length + 1` is as good as running the JS loop to completion. -/
theorem collideAux_fuel (now : ℚ) (f1 : ℕ) (s : GameState) (done todo : List Explosion)
    (f2 : ℕ)
    (h1 : todo.length + (if s.bomber.alive = true then 1 else 0) ≤ f1)
    (h2 : todo.length + (if s.bomber.alive = true then 1 else 0) ≤ f2) :
    collideAux now f1 s done todo = collideAux now f2 s done todo := by
  induction f1 generalizing f2 s done todo with
  | zero =>
    have h0 : todo.length = 0 := by omega
    rw [List.eq_nil_of_length_eq_zero h0]
    cases f2 with
    | zero => rfl
    | succ f2 => simp only [collideAux, List.append_nil]
  | succ f1 ih =>
    cases todo with
    | nil =>
      cases f2 with
      | zero => simp only [collideAux, List.append_nil]
      | succ f2 => rfl
    | cons e rest =>
      cases f2 with
      | zero => exact absurd h2 (by simp only [List.length_cons]; omega)
      | succ f2 =>
        simp only [collideAux]
        by_cases ha : e.alive = false
        · rw [if_pos ha, if_pos ha]
          exact ih s (done ++ [e]) rest f2 (by simp only [List.length_cons] at h1; omega)
            (by simp only [List.length_cons] at h2; omega)
        · rw [if_neg ha, if_neg ha]
          by_cases hb : bCond s e
          · rw [if_pos hb, if_pos hb]
            have hsb1 : (if s.bomber.alive = true then (1:ℕ) else 0) = 1 := by
              rw [hb.1]; exact ite_flag_true
            rw [hsb1] at h1 h2
            simp only [List.length_cons] at h1 h2
            have halive2 : (boyCheck (bomberFire s now) { e with hitBomber := true } now).2.bomber.alive
                = false := by
              rw [boyCheck_bomber]; rfl
            refine ih _ _ _ f2 ?_ ?_ <;>
              · rw [halive2, ite_flag_false]
                simp only [List.length_append, List.length_cons, List.length_nil]
                omega
          · rw [if_neg hb, if_neg hb]
            have hbm : (boyCheck s e now).2.bomber = s.bomber := boyCheck_bomber _ _ _
            refine ih _ _ _ f2 ?_ ?_ <;>
              · rw [hbm]
                simp only [List.length_cons] at h1 h2
                omega

/-! ### Reload one-shot invariant -/

/-- Number of pending reload tasks. -/
def reloadTasksCount (s : GameState) : ℕ :=
  s.tasks.countP fun t => decide (t.2 = TaskKind.reload)

/-- The one-shot-reload invariant: every reload that ever fired or is still
pending was scheduled, scheduling only happens with `reloadQueued` still
unset, and hence happens at most once. -/
def Inv2 (s : GameState) : Prop :=
  s.reloadFired + reloadTasksCount s ≤ s.reloadScheduleCount ∧
    (s.reloadQueued = false → s.reloadScheduleCount = 0) ∧
    s.reloadScheduleCount ≤ 1

theorem triggerEarthquake_inv2 {s : GameState} (now : ℚ) (h : Inv2 s) :
    Inv2 (triggerEarthquake s now) := by
  obtain ⟨h1, h2, h3⟩ := h
  unfold reloadTasksCount at h1
  unfold Inv2 reloadTasksCount
  unfold triggerEarthquake
  dsimp only
  split
  · exact ⟨h1, h2, h3⟩
  · rename_i hq
    have hq0 : s.reloadQueued = false := by
      cases hv : s.reloadQueued
      · rfl
      · exact absurd hv hq
    have hc0 : s.reloadScheduleCount = 0 := h2 hq0
    dsimp only
    rw [List.countP_append]
    have hone : ([((now + 2200 + 300 : ℚ), TaskKind.reload)]).countP
        (fun t => decide (t.2 = TaskKind.reload)) = 1 := rfl
    rw [hone]
    refine ⟨by omega, ?_, by omega⟩
    intro hfalse
    exact absurd hfalse (by simp)

theorem boyCheck_inv2 {s : GameState} (e : Explosion) (now : ℚ) (h : Inv2 s) :
    Inv2 (boyCheck s e now).2 := by
  unfold boyCheck
  split
  · exact triggerEarthquake_inv2 now h
  · exact h

theorem bomberFire_inv2 {s : GameState} (now : ℚ) (h : Inv2 s) :
    Inv2 (bomberFire s now) := by
  obtain ⟨h1, h2, h3⟩ := h
  refine ⟨?_, h2, h3⟩
  show s.reloadFired + (s.tasks ++ [(now + 1200, TaskKind.respawnBomber)]).countP _
    ≤ s.reloadScheduleCount
  rw [List.countP_append]
  have hzero : ([((now + 1200 : ℚ), TaskKind.respawnBomber)]).countP
      (fun t => decide (t.2 = TaskKind.reload)) = 0 := rfl
  rw [hzero]
  have : reloadTasksCount s = s.tasks.countP fun t => decide (t.2 = TaskKind.reload) := rfl
  rw [← this]
  omega

theorem collide_inv2 (now : ℚ) (fuel : ℕ) (s : GameState) (done todo : List Explosion)
    (h : Inv2 s) : Inv2 (collideAux now fuel s done todo) := by
  induction fuel generalizing s done todo with
  | zero => exact h
  | succ fuel ih =>
    cases todo with
    | nil => exact h
    | cons e rest =>
      simp only [collideAux]
      by_cases ha : e.alive = false
      · rw [if_pos ha]; exact ih s (done ++ [e]) rest h
      · rw [if_neg ha]
        by_cases hb : bCond s e
        · rw [if_pos hb]
          exact ih _ _ _ (boyCheck_inv2 _ now (bomberFire_inv2 now h))
        · rw [if_neg hb]
          exact ih _ _ _ (boyCheck_inv2 _ now h)

theorem countP_eraseIdx {α : Type} (l : List α) (i : ℕ) (a : α) (h : l[i]? = some a)
    (p : α → Bool) :
    l.countP p = (l.eraseIdx i).countP p + (if p a then 1 else 0) := by
  induction l generalizing i with
  | nil => exact absurd h (by simp)
  | cons b t ih =>
    cases i with
    | zero =>
      rw [List.getElem?_cons_zero] at h
      obtain rfl : b = a := Option.some.inj h
      show (b :: t).countP p = t.countP p + _
      rw [List.countP_cons]
    | succ i =>
      rw [List.getElem?_cons_succ] at h
      show (b :: t).countP p = (b :: t.eraseIdx i).countP p + _
      rw [List.countP_cons, List.countP_cons, ih i h]
      omega

theorem spawnBomber_inv2 {s : GameState} (h : Inv2 s) : Inv2 (spawnBomber s) := h

theorem taskFire_inv2 {s : GameState} (i : ℕ) (now : ℚ) (h : Inv2 s) :
    Inv2 (taskFire s i now) := by
  obtain ⟨h1, h2, h3⟩ := h
  unfold reloadTasksCount at h1
  unfold Inv2 reloadTasksCount
  unfold taskFire
  cases htask : s.tasks[i]? with
  | none => exact ⟨h1, h2, h3⟩
  | some tk =>
    obtain ⟨tf, k⟩ := tk
    dsimp only
    split
    · have herase := countP_eraseIdx s.tasks i (tf, k) htask
        (fun t => decide (t.2 = TaskKind.reload))
      cases k with
      | respawnBomber =>
        have hz : (decide ((tf, TaskKind.respawnBomber).2 = TaskKind.reload) : Bool) = false := rfl
        rw [hz, ite_flag_false] at herase
        dsimp only
        split
        · refine ⟨?_, h2, h3⟩
          show s.reloadFired + (s.tasks.eraseIdx i).countP
            (fun t => decide (t.2 = TaskKind.reload)) ≤ s.reloadScheduleCount
          omega
        · refine ⟨?_, h2, h3⟩
          show s.reloadFired + (s.tasks.eraseIdx i).countP
            (fun t => decide (t.2 = TaskKind.reload)) ≤ s.reloadScheduleCount
          omega
      | reload =>
        have ho : (decide ((tf, TaskKind.reload).2 = TaskKind.reload) : Bool) = true := rfl
        rw [ho, ite_flag_true] at herase
        refine ⟨?_, h2, h3⟩
        show s.reloadFired + 1 + (s.tasks.eraseIdx i).countP
          (fun t => decide (t.2 = TaskKind.reload)) ≤ s.reloadScheduleCount
        omega
    · exact ⟨h1, h2, h3⟩

/-! ### Ghost-identity well-formedness -/

/-- The ghost ids of a list of explosions are strictly increasing and below
the fresh-id counter.  This holds for every reachable state because
explosions are only ever appended with the current counter value. -/
def eidsOk (l : List Explosion) (n : ℕ) : Prop :=
  l.Pairwise (fun a b => a.eid < b.eid) ∧ ∀ e ∈ l, e.eid < n

theorem eidsOk_mono {l : List Explosion} {n m : ℕ} (h : eidsOk l n) (hnm : n ≤ m) :
    eidsOk l m :=
  ⟨h.1, fun e he => lt_of_lt_of_le (h.2 e he) hnm⟩

theorem eidsOk_append_fresh {l : List Explosion} {n : ℕ} {x : Explosion}
    (h : eidsOk l n) (hx : x.eid = n) : eidsOk (l ++ [x]) (n + 1) := by
  obtain ⟨hp, hb⟩ := h
  constructor
  · rw [List.pairwise_append]
    refine ⟨hp, List.pairwise_singleton _ _, ?_⟩
    intro a ha b hbmem
    rw [List.mem_singleton.mp hbmem, hx]
    exact hb a ha
  · intro e he
    rcases List.mem_append.mp he with h | h
    · exact Nat.lt_succ_of_lt (hb e h)
    · rw [List.mem_singleton.mp h, hx]; omega

theorem eidsOk_replace_mid {done rest : List Explosion} {e p1 : Explosion} {n : ℕ}
    (heid : p1.eid = e.eid) (h : eidsOk (done ++ e :: rest) n) :
    eidsOk (done ++ p1 :: rest) n := by
  obtain ⟨hp, hb⟩ := h
  rw [List.pairwise_append] at hp
  obtain ⟨hp1, hp2, hp3⟩ := hp
  rw [List.pairwise_cons] at hp2
  constructor
  · rw [List.pairwise_append]
    refine ⟨hp1, ?_, ?_⟩
    · rw [List.pairwise_cons]
      refine ⟨?_, hp2.2⟩
      intro b hbm
      rw [heid]
      exact hp2.1 b hbm
    · intro a ha b hbm
      rcases List.mem_cons.mp hbm with h | h
      · rw [h, heid]
        exact hp3 a ha e (List.mem_cons_self e rest)
      · exact hp3 a ha b (List.mem_cons_of_mem e h)
  · intro x hx
    rcases List.mem_append.mp hx with h | h
    · exact hb x (List.mem_append.mpr (Or.inl h))
    · rcases List.mem_cons.mp h with h | h
      · rw [h, heid]
        exact hb e (List.mem_append.mpr (Or.inr (List.mem_cons_self e rest)))
      · exact hb x (List.mem_append.mpr (Or.inr (List.mem_cons_of_mem e h)))

/-- The collision loop preserves id well-formedness. -/
theorem collide_eids (now : ℚ) (fuel : ℕ) (s : GameState) (done todo : List Explosion)
    (h : eidsOk (done ++ todo) s.nextEid) :
    eidsOk (collideAux now fuel s done todo).explosions
      (collideAux now fuel s done todo).nextEid := by
  induction fuel generalizing s done todo with
  | zero => exact h
  | succ fuel ih =>
    cases todo with
    | nil =>
      rw [List.append_nil] at h
      exact h
    | cons e rest =>
      simp only [collideAux]
      by_cases ha : e.alive = false
      · rw [if_pos ha]
        refine ih s (done ++ [e]) rest ?_
        rw [List.append_assoc]
        exact h
      · rw [if_neg ha]
        by_cases hb : bCond s e
        · rw [if_pos hb]
          refine ih _ _ _ ?_
          rw [boyCheck_nextEid, bomberFire_nextEid]
          have hp1eid : (boyCheck (bomberFire s now) { e with hitBomber := true } now).1.eid
              = e.eid := (boyCheck_fst _ _ _).1
          have hmid : eidsOk
              (done ++ (boyCheck (bomberFire s now) { e with hitBomber := true } now).1 :: rest)
              s.nextEid := eidsOk_replace_mid hp1eid h
          have hfresh := eidsOk_append_fresh hmid
            (x := mkExplosion s.nextEid s.bomber.x s.bomber.y now) rfl
          have hshape : (done ++ (boyCheck (bomberFire s now) { e with hitBomber := true } now).1
                :: rest) ++ [mkExplosion s.nextEid s.bomber.x s.bomber.y now]
              = (done ++ [(boyCheck (bomberFire s now) { e with hitBomber := true } now).1])
                ++ (rest ++ [mkExplosion s.nextEid s.bomber.x s.bomber.y now]) := by
            simp [List.append_assoc]
          rw [hshape] at hfresh
          exact hfresh
        · rw [if_neg hb]
          refine ih _ _ _ ?_
          rw [boyCheck_nextEid]
          have hp1eid : (boyCheck s e now).1.eid = e.eid := (boyCheck_fst _ _ _).1
          have hmid : eidsOk (done ++ (boyCheck s e now).1 :: rest) s.nextEid :=
            eidsOk_replace_mid hp1eid h
          rw [List.append_assoc]
          exact hmid

theorem eidsOk_unique {l : List Explosion} {n : ℕ} (h : eidsOk l n) {e e2 : Explosion}
    (he : e ∈ l) (he2 : e2 ∈ l) (heid : e2.eid = e.eid) : e2 = e := by
  induction l with
  | nil => exact absurd he (List.not_mem_nil e)
  | cons a t ih =>
    have hp := List.pairwise_cons.mp h.1
    rcases List.mem_cons.mp he with h1 | h1 <;> rcases List.mem_cons.mp he2 with h2 | h2
    · rw [h1, h2]
    · exfalso
      rw [h1] at heid
      have := hp.1 e2 h2
      omega
    · exfalso
      rw [h2] at heid
      have := hp.1 e h1
      omega
    · exact ih ⟨hp.2, fun x hx => h.2 x (List.mem_cons_of_mem a hx)⟩ h1 h2

/-! ### Field preservation through the pre-collision phases of `update` -/

theorem missilePhase_explosions (s : GameState) :
    (missilePhase s).explosions = s.explosions := by
  unfold missilePhase; split_ifs <;> rfl

theorem missilePhase_score (s : GameState) :
    (missilePhase s).score = s.score := by
  unfold missilePhase; split_ifs <;> rfl

theorem missilePhase_nextEid (s : GameState) :
    (missilePhase s).nextEid = s.nextEid := by
  unfold missilePhase; split_ifs <;> rfl

theorem missilePhase_tasks (s : GameState) :
    (missilePhase s).tasks = s.tasks := by
  unfold missilePhase; split_ifs <;> rfl

theorem missilePhase_reloadFired (s : GameState) :
    (missilePhase s).reloadFired = s.reloadFired := by
  unfold missilePhase; split_ifs <;> rfl

theorem missilePhase_reloadScheduleCount (s : GameState) :
    (missilePhase s).reloadScheduleCount = s.reloadScheduleCount := by
  unfold missilePhase; split_ifs <;> rfl

theorem missilePhase_reloadQueued (s : GameState) :
    (missilePhase s).reloadQueued = s.reloadQueued := by
  unfold missilePhase; split_ifs <;> rfl

theorem spawnPhase_explosions (s : GameState) (now : ℚ) :
    (spawnPhase s now).explosions = s.explosions := by
  unfold spawnPhase spawnBomber; dsimp only; split_ifs <;> rfl

theorem spawnPhase_score (s : GameState) (now : ℚ) :
    (spawnPhase s now).score = s.score := by
  unfold spawnPhase spawnBomber; dsimp only; split_ifs <;> rfl

theorem spawnPhase_nextEid (s : GameState) (now : ℚ) :
    (spawnPhase s now).nextEid = s.nextEid := by
  unfold spawnPhase spawnBomber; dsimp only; split_ifs <;> rfl

theorem spawnPhase_tasks (s : GameState) (now : ℚ) :
    (spawnPhase s now).tasks = s.tasks := by
  unfold spawnPhase spawnBomber; dsimp only; split_ifs <;> rfl

theorem spawnPhase_reloadFired (s : GameState) (now : ℚ) :
    (spawnPhase s now).reloadFired = s.reloadFired := by
  unfold spawnPhase spawnBomber; dsimp only; split_ifs <;> rfl

theorem spawnPhase_reloadScheduleCount (s : GameState) (now : ℚ) :
    (spawnPhase s now).reloadScheduleCount = s.reloadScheduleCount := by
  unfold spawnPhase spawnBomber; dsimp only; split_ifs <;> rfl

theorem spawnPhase_reloadQueued (s : GameState) (now : ℚ) :
    (spawnPhase s now).reloadQueued = s.reloadQueued := by
  unfold spawnPhase spawnBomber; dsimp only; split_ifs <;> rfl

theorem boyPhase_explosions (s : GameState) (dt : ℚ) :
    (boyPhase s dt).explosions = s.explosions := by
  unfold boyPhase; split_ifs <;> rfl

theorem boyPhase_score (s : GameState) (dt : ℚ) :
    (boyPhase s dt).score = s.score := by
  unfold boyPhase; split_ifs <;> rfl

theorem boyPhase_nextEid (s : GameState) (dt : ℚ) :
    (boyPhase s dt).nextEid = s.nextEid := by
  unfold boyPhase; split_ifs <;> rfl

theorem boyPhase_tasks (s : GameState) (dt : ℚ) :
    (boyPhase s dt).tasks = s.tasks := by
  unfold boyPhase; split_ifs <;> rfl

theorem boyPhase_reloadFired (s : GameState) (dt : ℚ) :
    (boyPhase s dt).reloadFired = s.reloadFired := by
  unfold boyPhase; split_ifs <;> rfl

theorem boyPhase_reloadScheduleCount (s : GameState) (dt : ℚ) :
    (boyPhase s dt).reloadScheduleCount = s.reloadScheduleCount := by
  unfold boyPhase; split_ifs <;> rfl

theorem boyPhase_reloadQueued (s : GameState) (dt : ℚ) :
    (boyPhase s dt).reloadQueued = s.reloadQueued := by
  unfold boyPhase; split_ifs <;> rfl

theorem bomberPhase_explosions (s : GameState) (dt : ℚ) :
    (bomberPhase s dt).explosions = s.explosions := by
  unfold bomberPhase; split_ifs <;> rfl

theorem bomberPhase_score (s : GameState) (dt : ℚ) :
    (bomberPhase s dt).score = s.score := by
  unfold bomberPhase; split_ifs <;> rfl

theorem bomberPhase_nextEid (s : GameState) (dt : ℚ) :
    (bomberPhase s dt).nextEid = s.nextEid := by
  unfold bomberPhase; split_ifs <;> rfl

theorem bomberPhase_tasks (s : GameState) (dt : ℚ) :
    (bomberPhase s dt).tasks = s.tasks := by
  unfold bomberPhase; split_ifs <;> rfl

theorem bomberPhase_reloadFired (s : GameState) (dt : ℚ) :
    (bomberPhase s dt).reloadFired = s.reloadFired := by
  unfold bomberPhase; split_ifs <;> rfl

theorem bomberPhase_reloadScheduleCount (s : GameState) (dt : ℚ) :
    (bomberPhase s dt).reloadScheduleCount = s.reloadScheduleCount := by
  unfold bomberPhase; split_ifs <;> rfl

theorem bomberPhase_reloadQueued (s : GameState) (dt : ℚ) :
    (bomberPhase s dt).reloadQueued = s.reloadQueued := by
  unfold bomberPhase; split_ifs <;> rfl

theorem pulsePopupPhase_explosions (s : GameState) (dt : ℚ) :
    (pulsePopupPhase s dt).explosions = s.explosions := rfl

theorem pulsePopupPhase_score (s : GameState) (dt : ℚ) :
    (pulsePopupPhase s dt).score = s.score := rfl

theorem pulsePopupPhase_nextEid (s : GameState) (dt : ℚ) :
    (pulsePopupPhase s dt).nextEid = s.nextEid := rfl

theorem pulsePopupPhase_tasks (s : GameState) (dt : ℚ) :
    (pulsePopupPhase s dt).tasks = s.tasks := rfl

theorem pulsePopupPhase_reloadFired (s : GameState) (dt : ℚ) :
    (pulsePopupPhase s dt).reloadFired = s.reloadFired := rfl

theorem pulsePopupPhase_reloadScheduleCount (s : GameState) (dt : ℚ) :
    (pulsePopupPhase s dt).reloadScheduleCount = s.reloadScheduleCount := rfl

theorem pulsePopupPhase_reloadQueued (s : GameState) (dt : ℚ) :
    (pulsePopupPhase s dt).reloadQueued = s.reloadQueued := rfl

theorem preCollide_explosions (s : GameState) (dt now : ℚ) :
    (preCollide s dt now).explosions = s.explosions := by
  unfold preCollide
  rw [pulsePopupPhase_explosions, bomberPhase_explosions, boyPhase_explosions, spawnPhase_explosions, missilePhase_explosions]

theorem preCollide_score (s : GameState) (dt now : ℚ) :
    (preCollide s dt now).score = s.score := by
  unfold preCollide
  rw [pulsePopupPhase_score, bomberPhase_score, boyPhase_score, spawnPhase_score, missilePhase_score]

theorem preCollide_nextEid (s : GameState) (dt now : ℚ) :
    (preCollide s dt now).nextEid = s.nextEid := by
  unfold preCollide
  rw [pulsePopupPhase_nextEid, bomberPhase_nextEid, boyPhase_nextEid, spawnPhase_nextEid, missilePhase_nextEid]

theorem preCollide_tasks (s : GameState) (dt now : ℚ) :
    (preCollide s dt now).tasks = s.tasks := by
  unfold preCollide
  rw [pulsePopupPhase_tasks, bomberPhase_tasks, boyPhase_tasks, spawnPhase_tasks, missilePhase_tasks]

theorem preCollide_reloadFired (s : GameState) (dt now : ℚ) :
    (preCollide s dt now).reloadFired = s.reloadFired := by
  unfold preCollide
  rw [pulsePopupPhase_reloadFired, bomberPhase_reloadFired, boyPhase_reloadFired, spawnPhase_reloadFired, missilePhase_reloadFired]

theorem preCollide_reloadScheduleCount (s : GameState) (dt now : ℚ) :
    (preCollide s dt now).reloadScheduleCount = s.reloadScheduleCount := by
  unfold preCollide
  rw [pulsePopupPhase_reloadScheduleCount, bomberPhase_reloadScheduleCount, boyPhase_reloadScheduleCount, spawnPhase_reloadScheduleCount, missilePhase_reloadScheduleCount]

theorem preCollide_reloadQueued (s : GameState) (dt now : ℚ) :
    (preCollide s dt now).reloadQueued = s.reloadQueued := by
  unfold preCollide
  rw [pulsePopupPhase_reloadQueued, bomberPhase_reloadQueued, boyPhase_reloadQueued, spawnPhase_reloadQueued, missilePhase_reloadQueued]

theorem missilePhase_boy (s : GameState) : (missilePhase s).boy = s.boy := by
  unfold missilePhase; split_ifs <;> rfl

theorem missilePhase_bomber (s : GameState) : (missilePhase s).bomber = s.bomber := by
  unfold missilePhase; split_ifs <;> rfl

theorem missilePhase_startTime (s : GameState) : (missilePhase s).startTime = s.startTime := by
  unfold missilePhase; split_ifs <;> rfl

theorem missilePhase_width (s : GameState) : (missilePhase s).width = s.width := by
  unfold missilePhase; split_ifs <;> rfl

theorem missilePhase_height (s : GameState) : (missilePhase s).height = s.height := by
  unfold missilePhase; split_ifs <;> rfl

theorem spawnPhase_boy_alive {s : GameState} (now : ℚ) (h : s.boy.alive = true) :
    (spawnPhase s now).boy = s.boy := by
  unfold spawnPhase spawnBomber
  dsimp only
  split_ifs <;> rfl

theorem spawnPhase_width (s : GameState) (now : ℚ) : (spawnPhase s now).width = s.width := by
  unfold spawnPhase spawnBomber
  dsimp only
  split_ifs <;> rfl

theorem spawnPhase_boy_dead {s : GameState} (now : ℚ) (hdead : s.boy.alive = false)
    (ht : now - s.startTime > 30000) :
    (spawnPhase s now).boy
      = { s.boy with alive := true, x := -80, y := groundY s.height - 8 } := by
  unfold spawnPhase spawnBomber
  dsimp only
  split_ifs <;> first | rfl | simp_all

theorem spawnPhase_bomber_dead {s : GameState} (now : ℚ) (hdead : s.bomber.alive = false)
    (ht : now - s.startTime > 30000) :
    (spawnPhase s now).bomber
      = { s.bomber with
          alive := true, animTime := 0, x := -200, y := groundY s.height - 200 } := by
  unfold spawnPhase spawnBomber
  dsimp only
  split_ifs <;> first | rfl | simp_all

theorem boyPhase_boy_alive {s : GameState} (dt : ℚ) (h : s.boy.alive = true) :
    (boyPhase s dt).boy = { s.boy with
      x := if s.boy.x + (3/25) * dt - s.boy.w / 2 > s.width + 40 then -80
           else s.boy.x + (3/25) * dt } := by
  unfold boyPhase
  rw [if_pos h]

theorem boyPhase_bomber (s : GameState) (dt : ℚ) : (boyPhase s dt).bomber = s.bomber := by
  unfold boyPhase; split_ifs <;> rfl

theorem boyPhase_height (s : GameState) (dt : ℚ) : (boyPhase s dt).height = s.height := by
  unfold boyPhase; split_ifs <;> rfl

theorem bomberPhase_boy (s : GameState) (dt : ℚ) : (bomberPhase s dt).boy = s.boy := by
  unfold bomberPhase; split_ifs <;> rfl

theorem bomberPhase_bomber_alive (s : GameState) (dt : ℚ) :
    (bomberPhase s dt).bomber.alive = s.bomber.alive := by
  unfold bomberPhase; split_ifs <;> rfl

theorem pulsePopupPhase_boy (s : GameState) (dt : ℚ) : (pulsePopupPhase s dt).boy = s.boy := rfl

theorem pulsePopupPhase_bomber (s : GameState) (dt : ℚ) :
    (pulsePopupPhase s dt).bomber = s.bomber := rfl

/-! ### Event-level lemmas -/

theorem taskFire_score (s : GameState) (i : ℕ) (now : ℚ) :
    (taskFire s i now).score = s.score := by
  unfold taskFire spawnBomber
  cases h : s.tasks[i]? with
  | none => rfl
  | some tk =>
    obtain ⟨tf, k⟩ := tk
    cases k <;> dsimp only <;> split_ifs <;> rfl

theorem settleFire_score (s : GameState) (now : ℚ) :
    (settleFire s now).score = s.score := by
  unfold settleFire spawnExplosion
  cases h : s.pendingSettle with
  | none => rfl
  | some tf => dsimp only; split_ifs <;> rfl

theorem frame_score (s : GameState) (now : ℚ) :
    (frame s now).score = (update { s with lastTime := now } (now - s.lastTime) now).score := rfl

theorem update_score_mono (s : GameState) (dt now : ℚ) :
    s.score ≤ (update s dt now).score := by
  unfold update collisionPhase
  calc s.score = (preCollide s dt now).score := (preCollide_score s dt now).symm
    _ ≤ _ := collide_score_mono _ _ _ _ _

theorem stepOp_score_mono (s : GameState) (op : Op) : s.score ≤ (stepOp s op).score := by
  cases op with
  | frame now =>
    show s.score ≤ (frame s now).score
    rw [frame_score]
    exact update_score_mono { s with lastTime := now } (now - s.lastTime) now
  | move x y now => exact le_refl _
  | click x y now => exact le_refl _
  | settleDue now =>
    show s.score ≤ (settleFire s now).score
    rw [settleFire_score]
  | taskDue i now =>
    show s.score ≤ (taskFire s i now).score
    rw [taskFire_score]

theorem run_score_mono (s : GameState) (ops : List Op) : s.score ≤ (run s ops).score := by
  induction ops generalizing s with
  | nil => exact le_refl _
  | cons op rest ih =>
    exact le_trans (stepOp_score_mono s op) (ih (stepOp s op))

/-- An explosion id that is flagged for the bomber, stated as a state
predicate: the id is in the past id range and every explosion carrying it
(if any still lives) is flagged. -/
def flaggedOk (i : ℕ) (s : GameState) : Prop :=
  i < s.nextEid ∧ ∀ e ∈ s.explosions, e.eid = i → e.hitBomber = true

theorem flaggedOk_congr {i : ℕ} {s t : GameState} (he : t.explosions = s.explosions)
    (hn : t.nextEid = s.nextEid) (h : flaggedOk i s) : flaggedOk i t := by
  obtain ⟨h1, h2⟩ := h
  exact ⟨by omega, fun e hmem => h2 e (he ▸ hmem)⟩

theorem spawnExplosion_flagged {i : ℕ} {s : GameState} (x y now : ℚ)
    (h : flaggedOk i s) : flaggedOk i (spawnExplosion s x y now) := by
  obtain ⟨h1, h2⟩ := h
  refine ⟨by show i < s.nextEid + 1; omega, ?_⟩
  intro e hmem
  rcases List.mem_append.mp hmem with hm | hm
  · exact h2 e hm
  · rw [List.mem_singleton.mp hm]
    intro heid
    exact absurd heid (by show s.nextEid ≠ i; omega)

theorem taskFire_explosions (s : GameState) (i : ℕ) (now : ℚ) :
    (taskFire s i now).explosions = s.explosions := by
  unfold taskFire spawnBomber
  cases h : s.tasks[i]? with
  | none => rfl
  | some tk =>
    obtain ⟨tf, k⟩ := tk
    cases k <;> dsimp only <;> split_ifs <;> rfl

theorem taskFire_nextEid (s : GameState) (i : ℕ) (now : ℚ) :
    (taskFire s i now).nextEid = s.nextEid := by
  unfold taskFire spawnBomber
  cases h : s.tasks[i]? with
  | none => rfl
  | some tk =>
    obtain ⟨tf, k⟩ := tk
    cases k <;> dsimp only <;> split_ifs <;> rfl

theorem growExplosions_flagged {i : ℕ} {s : GameState} (now : ℚ)
    (h : flaggedOk i s) : flaggedOk i (growExplosions s now) := by
  obtain ⟨h1, h2⟩ := h
  refine ⟨h1, ?_⟩
  intro e hmem heid
  obtain ⟨pre, hpre, hfe⟩ := List.mem_map.mp hmem
  by_cases ha : pre.alive = true
  · rw [if_pos ha] at hfe
    rw [← hfe] at heid ⊢
    exact h2 pre hpre heid
  · rw [if_neg ha] at hfe
    rw [← hfe] at heid ⊢
    exact h2 pre hpre heid

theorem cleanupPhase_flagged {i : ℕ} {s : GameState} (now : ℚ)
    (h : flaggedOk i s) : flaggedOk i (cleanupPhase s now) := by
  obtain ⟨h1, h2⟩ := h
  exact ⟨h1, fun e hmem => h2 e (List.mem_of_mem_filter hmem)⟩

theorem update_flagged {i : ℕ} {s : GameState} (dt now : ℚ)
    (h : flaggedOk i s) : flaggedOk i (update s dt now) := by
  have hm : flaggedOk i (preCollide s dt now) :=
    flaggedOk_congr (preCollide_explosions s dt now) (preCollide_nextEid s dt now) h
  obtain ⟨h1, h2⟩ := hm
  unfold update collisionPhase
  constructor
  · have := collide_nextEid_mono now ((preCollide s dt now).explosions.length + 1)
      (preCollide s dt now) [] (preCollide s dt now).explosions
    omega
  · exact collide_flag_persist now _ _ [] _ i h1 (fun e hmem => absurd hmem (List.not_mem_nil e)) h2

theorem stepOp_flagged {i : ℕ} {s : GameState} (op : Op)
    (h : flaggedOk i s) : flaggedOk i (stepOp s op) := by
  cases op with
  | frame now =>
    show flaggedOk i (frame s now)
    unfold frame
    have hu : flaggedOk i (update { s with lastTime := now } (now - s.lastTime) now) :=
      update_flagged _ now (flaggedOk_congr rfl rfl h)
    have hg : flaggedOk i
        (growExplosions (update { s with lastTime := now } (now - s.lastTime) now) now) :=
      growExplosions_flagged now hu
    exact cleanupPhase_flagged now (flaggedOk_congr rfl rfl hg)
  | move x y now => exact flaggedOk_congr rfl rfl h
  | click x y now => exact spawnExplosion_flagged x y now (flaggedOk_congr rfl rfl h)
  | settleDue now =>
    show flaggedOk i (settleFire s now)
    unfold settleFire
    cases hp : s.pendingSettle with
    | none => exact h
    | some tf =>
      dsimp only
      split_ifs with hd
      · exact spawnExplosion_flagged _ _ now (flaggedOk_congr rfl rfl h)
      · exact h
  | taskDue j now =>
    exact flaggedOk_congr (taskFire_explosions s j now) (taskFire_nextEid s j now) h

theorem run_flagged {i : ℕ} {s : GameState} (ops : List Op)
    (h : flaggedOk i s) : flaggedOk i (run s ops) := by
  induction ops generalizing s with
  | nil => exact h
  | cons op rest ih => exact ih (stepOp_flagged op h)

theorem Inv2_congr {s t : GameState} (hf : t.reloadFired = s.reloadFired)
    (ht : t.tasks = s.tasks) (hq : t.reloadQueued = s.reloadQueued)
    (hc : t.reloadScheduleCount = s.reloadScheduleCount) (h : Inv2 s) : Inv2 t := by
  obtain ⟨h1, h2, h3⟩ := h
  unfold reloadTasksCount at h1
  refine ⟨?_, ?_, ?_⟩
  · show t.reloadFired + reloadTasksCount t ≤ t.reloadScheduleCount
    unfold reloadTasksCount
    rw [hf, ht, hc]
    exact h1
  · show t.reloadQueued = false → t.reloadScheduleCount = 0
    rw [hq, hc]
    exact h2
  · show t.reloadScheduleCount ≤ 1
    rw [hc]
    exact h3

theorem settleFire_inv2 {s : GameState} (now : ℚ) (h : Inv2 s) :
    Inv2 (settleFire s now) := by
  unfold settleFire
  cases hp : s.pendingSettle with
  | none => exact h
  | some tf =>
    dsimp only
    split_ifs with hd
    · exact h
    · exact h

theorem update_inv2 {s : GameState} (dt now : ℚ) (h : Inv2 s) : Inv2 (update s dt now) := by
  unfold update collisionPhase
  refine collide_inv2 now _ _ _ _ ?_
  exact Inv2_congr (preCollide_reloadFired s dt now) (preCollide_tasks s dt now)
    (preCollide_reloadQueued s dt now) (preCollide_reloadScheduleCount s dt now) h

theorem frame_reloadFired (s : GameState) (now : ℚ) :
    (frame s now).reloadFired
      = (update { s with lastTime := now } (now - s.lastTime) now).reloadFired := rfl

theorem frame_tasks (s : GameState) (now : ℚ) :
    (frame s now).tasks
      = (update { s with lastTime := now } (now - s.lastTime) now).tasks := rfl

theorem frame_reloadQueued (s : GameState) (now : ℚ) :
    (frame s now).reloadQueued
      = (update { s with lastTime := now } (now - s.lastTime) now).reloadQueued := rfl

theorem frame_reloadScheduleCount (s : GameState) (now : ℚ) :
    (frame s now).reloadScheduleCount
      = (update { s with lastTime := now } (now - s.lastTime) now).reloadScheduleCount := rfl

theorem stepOp_inv2 {s : GameState} (op : Op) (h : Inv2 s) : Inv2 (stepOp s op) := by
  cases op with
  | frame now =>
    show Inv2 (frame s now)
    have h0 : Inv2 { s with lastTime := now } := Inv2_congr rfl rfl rfl rfl h
    have hu : Inv2 (update { s with lastTime := now } (now - s.lastTime) now) :=
      update_inv2 (now - s.lastTime) now h0
    exact Inv2_congr (frame_reloadFired s now) (frame_tasks s now)
      (frame_reloadQueued s now) (frame_reloadScheduleCount s now) hu
  | move x y now => exact h
  | click x y now => exact h
  | settleDue now => exact settleFire_inv2 now h
  | taskDue i now => exact taskFire_inv2 i now h

theorem run_inv2 {s : GameState} (ops : List Op) (h : Inv2 s) : Inv2 (run s ops) := by
  induction ops generalizing s with
  | nil => exact h
  | cons op rest ih => exact ih (stepOp_inv2 op h)

theorem initState_inv2 (w h t0 : ℚ) : Inv2 (initState w h t0) := by
  refine ⟨?_, ?_, ?_⟩
  · show (0:ℕ) + reloadTasksCount (initState w h t0) ≤ 0
    have hz : reloadTasksCount (initState w h t0) = 0 := rfl
    rw [hz]
  · exact fun _ => rfl
  · show (0:ℕ) ≤ 1
    omega

/-! ### Radius growth and cleanup -/

theorem radiusAt_mono (mR lf e1 e2 : ℚ) (hm : 0 ≤ mR) (hl : 0 < lf) (he : e1 ≤ e2) :
    radiusAt mR lf e1 ≤ radiusAt mR lf e2 := by
  unfold radiusAt clamp
  have h1 : e1 / lf ≤ e2 / lf := by
    exact div_le_div_of_nonneg_right he (le_of_lt hl)
  have h2 : max 0 (min 1 (e1 / lf)) ≤ max 0 (min 1 (e2 / lf)) :=
    max_le_max (le_refl 0) (min_le_min (le_refl 1) h1)
  have h3 : (1:ℚ)/5 + (4/5) * max 0 (min 1 (e1 / lf))
      ≤ 1/5 + (4/5) * max 0 (min 1 (e2 / lf)) := by linarith
  exact mul_le_mul_of_nonneg_left h3 hm

/-- Every explosion surviving a full frame has elapsed life within its
lifetime, and every live one carries the freshly grown radius. -/
theorem frame_explosions_mem {s : GameState} {now : ℚ} {e : Explosion}
    (hmem : e ∈ (frame s now).explosions) :
    now - e.createdAt ≤ e.lifeMs ∧
      (e.alive = true → e.r = radiusAt e.maxR e.lifeMs (now - e.createdAt)) := by
  unfold frame cleanupPhase at hmem
  obtain ⟨hmem1, hpred⟩ := List.mem_filter.mp hmem
  have hle : now - e.createdAt ≤ e.lifeMs := by
    have := of_decide_eq_true hpred
    exact le_of_not_lt this
  refine ⟨hle, ?_⟩
  have hmem2 : e ∈ (growExplosions
      (update { s with lastTime := now } (now - s.lastTime) now) now).explosions := hmem1
  unfold growExplosions at hmem2
  obtain ⟨pre, hpre, hfe⟩ := List.mem_map.mp hmem2
  intro halive
  by_cases ha : pre.alive = true
  · rw [if_pos ha] at hfe
    rw [← hfe]
  · rw [if_neg ha] at hfe
    rw [← hfe] at halive
    exact absurd halive ha

/-! ### Id well-formedness is preserved by every event -/

theorem spawnExplosion_eids {s : GameState} (x y now : ℚ)
    (h : eidsOk s.explosions s.nextEid) :
    eidsOk (spawnExplosion s x y now).explosions (spawnExplosion s x y now).nextEid :=
  eidsOk_append_fresh h rfl

theorem growExplosions_eids {s : GameState} (now : ℚ)
    (h : eidsOk s.explosions s.nextEid) :
    eidsOk (growExplosions s now).explosions (growExplosions s now).nextEid := by
  obtain ⟨hp, hb⟩ := h
  constructor
  · refine List.Pairwise.map _ ?_ hp
    intro a b hab
    show (if a.alive = true then _ else a).eid < (if b.alive = true then _ else b).eid
    split_ifs <;> exact hab
  · intro e hmem
    obtain ⟨pre, hpre, hfe⟩ := List.mem_map.mp hmem
    have he : e.eid = pre.eid := by
      rw [← hfe]
      split_ifs <;> rfl
    show e.eid < s.nextEid
    rw [he]
    exact hb pre hpre

theorem cleanupPhase_eids {s : GameState} (now : ℚ)
    (h : eidsOk s.explosions s.nextEid) :
    eidsOk (cleanupPhase s now).explosions (cleanupPhase s now).nextEid := by
  obtain ⟨hp, hb⟩ := h
  exact ⟨List.Pairwise.sublist (List.filter_sublist s.explosions) hp,
    fun e hmem => hb e (List.mem_of_mem_filter hmem)⟩

theorem update_eids {s : GameState} (dt now : ℚ)
    (h : eidsOk s.explosions s.nextEid) :
    eidsOk (update s dt now).explosions (update s dt now).nextEid := by
  have hm : eidsOk (preCollide s dt now).explosions (preCollide s dt now).nextEid := by
    rw [preCollide_explosions, preCollide_nextEid]
    exact h
  unfold update collisionPhase
  exact collide_eids now _ _ [] _ (by rw [List.nil_append]; exact hm)

theorem stepOp_eids {s : GameState} (op : Op)
    (h : eidsOk s.explosions s.nextEid) :
    eidsOk (stepOp s op).explosions (stepOp s op).nextEid := by
  cases op with
  | frame now =>
    show eidsOk (frame s now).explosions (frame s now).nextEid
    unfold frame
    have hu : eidsOk (update { s with lastTime := now } (now - s.lastTime) now).explosions
        (update { s with lastTime := now } (now - s.lastTime) now).nextEid :=
      update_eids (now - s.lastTime) now h
    have hg := growExplosions_eids now hu
    exact cleanupPhase_eids now hg
  | move x y now => exact h
  | click x y now => exact spawnExplosion_eids x y now h
  | settleDue now =>
    show eidsOk (settleFire s now).explosions (settleFire s now).nextEid
    unfold settleFire
    cases hp : s.pendingSettle with
    | none => exact h
    | some tf =>
      dsimp only
      split_ifs with hd
      · exact spawnExplosion_eids _ _ now h
      · exact h
  | taskDue j now =>
    show eidsOk (taskFire s j now).explosions (taskFire s j now).nextEid
    rw [taskFire_explosions, taskFire_nextEid]
    exact h

theorem run_eids {s : GameState} (ops : List Op)
    (h : eidsOk s.explosions s.nextEid) :
    eidsOk (run s ops).explosions (run s ops).nextEid := by
  induction ops generalizing s with
  | nil => exact h
  | cons op rest ih => exact ih (stepOp_eids op h)

theorem initState_eids (w h t0 : ℚ) :
    eidsOk (initState w h t0).explosions (initState w h t0).nextEid :=
  ⟨List.Pairwise.nil, fun e he => absurd he (List.not_mem_nil e)⟩

/-! ### Claim theorems -/

/-- C1: the per-explosion `hitBomber` flag is one-shot across the whole
session: once an explosion credits a bomber kill, that same explosion
(identified by its ghost id) remains flagged through every later event and
can never match the `!ex.hitBomber` arming guard again; the score is
monotone over events, and within any single `update` step the score grows
by exactly the number of explosions whose flag flips, so each explosion
increments the score at most once. -/
theorem score_once_per_explosion (w h t0 : ℚ) (ops ops2 : List Op) (dt now : ℚ)
    (e e2 : Explosion)
    (hmem : e ∈ (run (initState w h t0) ops).explosions)
    (hflag : e.hitBomber = true)
    (hmem2 : e2 ∈ (run (run (initState w h t0) ops) ops2).explosions)
    (heid : e2.eid = e.eid) :
    e2.hitBomber = true ∧
      (run (initState w h t0) ops).score ≤ (run (run (initState w h t0) ops) ops2).score ∧
      (update (run (initState w h t0) ops) dt now).score
          + flagCount (run (initState w h t0) ops).explosions
        = (run (initState w h t0) ops).score
          + flagCount (update (run (initState w h t0) ops) dt now).explosions := by
  set s := run (initState w h t0) ops with hs
  have hwf : eidsOk s.explosions s.nextEid := run_eids ops (initState_eids w h t0)
  have hfl : flaggedOk e.eid s := by
    refine ⟨hwf.2 e hmem, ?_⟩
    intro e1 hm1 heid1
    rw [eidsOk_unique hwf hmem hm1 heid1]
    exact hflag
  have hfl2 := run_flagged ops2 hfl
  refine ⟨hfl2.2 e2 hmem2 heid, run_score_mono s ops2, ?_⟩
  have hfeq := collide_score_flag now ((preCollide s dt now).explosions.length + 1)
    (preCollide s dt now) [] (preCollide s dt now).explosions (by split_ifs <;> omega)
  rw [flagCount_nil] at hfeq
  have h2 : flagCount (preCollide s dt now).explosions = flagCount s.explosions := by
    rw [preCollide_explosions]
  have h3 : (preCollide s dt now).score = s.score := preCollide_score s dt now
  have h1 : update s dt now = collideAux now ((preCollide s dt now).explosions.length + 1)
      (preCollide s dt now) [] (preCollide s dt now).explosions := rfl
  rw [h1]
  omega

/-- C3: a live, not-yet-flagged explosion overlapping the bomber (the first
such one in iteration order) makes the `update` step perform all of the
kill effects at once: score +1, score pulse set to 1, a "+1" popup at
`(bomber.x, bomber.y − 20)`, the bomber marked dead, a 1200 ms respawn
timeout scheduled, the explosion flagged `hitBomber` in place, and a fresh
secondary explosion pushed at the bomber's position. -/
theorem flyer_hit_step_effects (s : GameState) (dt now : ℚ) (i : ℕ) (ex : Explosion)
    (hB : (preCollide s dt now).bomber.alive = true)
    (hi : (preCollide s dt now).explosions[i]? = some ex)
    (halive : ex.alive = true) (hflag : ex.hitBomber = false)
    (hhit : circleHit ex (preCollide s dt now).bomber.x (preCollide s dt now).bomber.y 40)
    (hfirst : ∀ j, j < i → ∀ e, (preCollide s dt now).explosions[j]? = some e →
      ¬(e.alive = true ∧ e.hitBomber = false ∧
        circleHit e (preCollide s dt now).bomber.x (preCollide s dt now).bomber.y 40)) :
    (update s dt now).score = s.score + 1 ∧
      (update s dt now).scorePulse = 1 ∧
      (update s dt now).popups = (preCollide s dt now).popups ++
        [⟨(preCollide s dt now).bomber.x, (preCollide s dt now).bomber.y - 20, "+1", 0, 900⟩] ∧
      (update s dt now).bomber.alive = false ∧
      (now + 1200, TaskKind.respawnBomber) ∈ (update s dt now).tasks ∧
      (update s dt now).explosions.length = s.explosions.length + 1 ∧
      (∃ e1, (update s dt now).explosions[i]? = some e1 ∧
        e1.hitBomber = true ∧ rCore ex e1) ∧
      (∃ e2, (update s dt now).explosions[s.explosions.length]? = some e2 ∧
        e2.x = (preCollide s dt now).bomber.x ∧ e2.y = (preCollide s dt now).bomber.y ∧
        e2.r = 0 ∧ e2.maxR = 140 ∧ e2.alive = true ∧ e2.createdAt = now ∧
        e2.lifeMs = 1200 ∧ e2.hitBomber = false) := by
  have hlen : i < (preCollide s dt now).explosions.length := getElem?_some_lt hi
  have hlen2 : (preCollide s dt now).explosions.length = s.explosions.length := by
    rw [preCollide_explosions]
  obtain ⟨g1, g2, g3, g4, g5, g6, g7, g8⟩ :=
    collide_first_hit now ((preCollide s dt now).explosions.length + 1)
      (preCollide s dt now) [] (preCollide s dt now).explosions i ex (by omega)
      hB hi halive hflag hhit hfirst
  have h1 : update s dt now = collideAux now ((preCollide s dt now).explosions.length + 1)
      (preCollide s dt now) [] (preCollide s dt now).explosions := rfl
  rw [h1]
  refine ⟨?_, g2, g3, g4, g5, ?_, ?_, ?_⟩
  · rw [g1, preCollide_score]
  · simp only [List.length_nil, Nat.zero_add] at g6
    rw [← hlen2]
    exact g6
  · obtain ⟨e1, he1, hf1, hr1⟩ := g7
    exact ⟨e1, by simpa using he1, hf1, hr1⟩
  · obtain ⟨e2, he2, _, hx, hy, hr, hmx, hal, hc, hlf, hhb⟩ := g8
    refine ⟨e2, ?_, hx, hy, hr, hmx, hal, hc, hlf, hhb⟩
    rw [← hlen2]
    simpa using he2

/-- C2: for any sequence of events in a session started from the initial
state, the reload callback is scheduled at most once and fires at most once,
however many explosions satisfy the runner-hit condition in the same or
adjacent frames — the one-shot `reloadQueued` flag guards the `setTimeout`. -/
theorem reload_scheduled_and_fires_at_most_once (w h t0 : ℚ) (ops : List Op) :
    (run (initState w h t0) ops).reloadScheduleCount ≤ 1 ∧
      (run (initState w h t0) ops).reloadFired ≤ 1 := by
  obtain ⟨h1, h2, h3⟩ := run_inv2 ops (initState_inv2 w h t0)
  exact ⟨h3, by omega⟩

/-- C4: after any frame, every live explosion's collision radius equals
`maxR · (0.2 + 0.8 · clamp(elapsed/lifetime, 0, 1))`, that formula is
non-decreasing in elapsed time, and no explosion with `elapsed > lifetime`
survives the frame's cleanup into the live set. -/
theorem explosion_radius_formula_and_expiry (s : GameState) (now : ℚ) (e : Explosion)
    (hmem : e ∈ (stepOp s (Op.frame now)).explosions) :
    (e.alive = true → e.r = radiusAt e.maxR e.lifeMs (now - e.createdAt)) ∧
      now - e.createdAt ≤ e.lifeMs ∧
      (∀ mR lf e1 e2 : ℚ, 0 ≤ mR → 0 < lf → e1 ≤ e2 →
        radiusAt mR lf e1 ≤ radiusAt mR lf e2) := by
  have hm := frame_explosions_mem hmem
  exact ⟨hm.2, hm.1, radiusAt_mono⟩

/-- C7 (amended): an alive runner advances by `0.12·dt` per step with no
vertical motion and wraps to `-80` exactly when, after advancing, its
centre minus half its width exceeds `width + 40` (i.e. `x > width + 54`);
a runner at `x = width + 41` is therefore not reset by a normal step. -/
theorem runner_motion_and_wrap_threshold (s : GameState) (dt now : ℚ)
    (halive : s.boy.alive = true) :
    (update s dt now).boy.y = s.boy.y ∧
      (update s dt now).boy.x
        = (if s.boy.x + (3/25) * dt - s.boy.w / 2 > s.width + 40 then -80
           else s.boy.x + (3/25) * dt) := by
  have h1 : (missilePhase s).boy = s.boy := missilePhase_boy s
  have h2 : (spawnPhase (missilePhase s) now).boy = s.boy := by
    rw [spawnPhase_boy_alive now (by rw [h1]; exact halive), h1]
  have h3 := boyPhase_boy_alive (s := spawnPhase (missilePhase s) now) dt
    (by rw [h2]; exact halive)
  rw [h2] at h3
  have hw : (spawnPhase (missilePhase s) now).width = s.width := by
    rw [spawnPhase_width, missilePhase_width]
  rw [hw] at h3
  have h4 : (preCollide s dt now).boy
      = (boyPhase (spawnPhase (missilePhase s) now) dt).boy := by
    unfold preCollide
    rw [pulsePopupPhase_boy, bomberPhase_boy]
  obtain ⟨hx, hy, _, _⟩ := collide_boy_pos now
    ((preCollide s dt now).explosions.length + 1) (preCollide s dt now) []
    (preCollide s dt now).explosions
  constructor
  · show (update s dt now).boy.y = s.boy.y
    unfold update collisionPhase
    rw [hy, h4, h3]
  · show (update s dt now).boy.x = _
    unfold update collisionPhase
    rw [hx, h4, h3]

/-- C5 (corrected): within one `loop` step the hit test runs on the radii
carried over from the previous frame — the `update` collision pass never
changes any surviving explosion's `r` — and only afterwards does the draw
pass grow each live radius to the current frame's value, with stale-entity
cleanup running last; the spec's claimed growth-before-collision order does
not hold. -/
theorem step_tests_collisions_before_growth (s : GameState) (dt now : ℚ)
    (k : ℕ) (e : Explosion)
    (hk : s.explosions[k]? = some e) :
    (∃ e1, (update s dt now).explosions[k]? = some e1 ∧ e1.r = e.r) ∧
      ∀ e2 ∈ (stepOp s (Op.frame now)).explosions,
        (e2.alive = true → e2.r = radiusAt e2.maxR e2.lifeMs (now - e2.createdAt)) ∧
          now - e2.createdAt ≤ e2.lifeMs := by
  constructor
  · have hk2 : (preCollide s dt now).explosions[k]? = some e := by
      rw [preCollide_explosions]
      exact hk
    obtain ⟨e1, he1, hc⟩ := collide_pos now ((preCollide s dt now).explosions.length + 1)
      (preCollide s dt now) [] (preCollide s dt now).explosions k e hk2
    refine ⟨e1, ?_, hc.2.2.2.1⟩
    have h1 : update s dt now = collideAux now ((preCollide s dt now).explosions.length + 1)
        (preCollide s dt now) [] (preCollide s dt now).explosions := rfl
    rw [h1]
    simpa using he1
  · intro e2 hm2
    have h := frame_explosions_mem hm2
    exact ⟨h.2, h.1⟩

/-- C6 (corrected): a dead flyer does not stay dormant until the scheduled
1200 ms respawn callback — once the session is past the 30-second mark, the
time-gated spawn block of the very next `update` step revives it, because
that block is conditioned only on the flyer not being alive.  (The
explosion-safety hypothesis keeps it from being killed again within the
same step.) -/
theorem flyer_respawns_next_update (s : GameState) (dt now : ℚ)
    (hdead : s.bomber.alive = false)
    (ht : now - s.startTime > 30000)
    (hsafe : ∀ e ∈ (preCollide s dt now).explosions, ¬ bCond (preCollide s dt now) e) :
    (update s dt now).bomber.alive = true := by
  have h1 : (missilePhase s).bomber = s.bomber := missilePhase_bomber s
  have h2 : (spawnPhase (missilePhase s) now).bomber
      = { s.bomber with
          alive := true, animTime := 0, x := -200, y := groundY s.height - 200 } := by
    rw [spawnPhase_bomber_dead now (by rw [h1]; exact hdead)
      (by rw [missilePhase_startTime]; exact ht), h1, missilePhase_height]
  have halive : (preCollide s dt now).bomber.alive = true := by
    show (pulsePopupPhase (bomberPhase (boyPhase (spawnPhase (missilePhase s) now) dt) dt)
      dt).bomber.alive = true
    rw [pulsePopupPhase_bomber, bomberPhase_bomber_alive, boyPhase_bomber, h2]
  obtain ⟨hb, _⟩ := collide_bomber_safe now ((preCollide s dt now).explosions.length + 1)
    (preCollide s dt now) [] (preCollide s dt now).explosions hsafe
  show (collideAux now ((preCollide s dt now).explosions.length + 1)
    (preCollide s dt now) [] (preCollide s dt now).explosions).bomber.alive = true
  rw [hb]
  exact halive

/-- C8: once a first activation has occurred, pointer moves at `t`, `t+100`
and `t+200` leave the settle timer armed for `t+440` (each move cancels and
re-arms it), the timer firing at any earlier time is a no-op, and when it
fires at `t+440` exactly one settle explosion spawns at the last pointer
position and the timer disarms. -/
theorem settle_debounce (s : GameState) (x1 y1 x2 y2 x3 y3 t : ℚ)
    (h : s.firstClickHandled = true) :
    (run s [Op.move x1 y1 t, Op.move x2 y2 (t + 100), Op.move x3 y3 (t + 200)]).pendingSettle
        = some (t + 440) ∧
      (∀ u : ℚ, u < t + 440 →
        stepOp (run s [Op.move x1 y1 t, Op.move x2 y2 (t + 100), Op.move x3 y3 (t + 200)])
            (Op.settleDue u)
          = run s [Op.move x1 y1 t, Op.move x2 y2 (t + 100), Op.move x3 y3 (t + 200)]) ∧
      (stepOp (run s [Op.move x1 y1 t, Op.move x2 y2 (t + 100), Op.move x3 y3 (t + 200)])
          (Op.settleDue (t + 440))).explosions
        = s.explosions ++ [mkExplosion s.nextEid x3 y3 (t + 440)] ∧
      (stepOp (run s [Op.move x1 y1 t, Op.move x2 y2 (t + 100), Op.move x3 y3 (t + 200)])
          (Op.settleDue (t + 440))).pendingSettle = none := by
  set m3 := run s [Op.move x1 y1 t, Op.move x2 y2 (t + 100), Op.move x3 y3 (t + 200)] with hm3
  have hps : m3.pendingSettle = some (t + 440) := by
    show (if s.firstClickHandled = true then some (t + 200 + 240) else none) = some (t + 440)
    rw [h, if_pos rfl]
    congr 1
    ring
  have hstep : ∀ u : ℚ, stepOp m3 (Op.settleDue u)
      = (if t + 440 ≤ u then
          spawnExplosion { m3 with pendingSettle := none } m3.mouseX m3.mouseY u
        else m3) := by
    intro u
    show settleFire m3 u = _
    unfold settleFire
    rw [hps]
  refine ⟨hps, ?_, ?_, ?_⟩
  · intro u hu
    rw [hstep u, if_neg (by linarith)]
  · rw [hstep (t + 440), if_pos (le_refl _)]
    rfl
  · rw [hstep (t + 440), if_pos (le_refl _)]
    rfl

/-- C10 (corrected): an activation never touches the settle timer — only
pointer moves clear and re-arm it — so when the timer is already armed by a
move at `t` (which requires a prior first activation), a click within the
debounce window spawns its own explosion, leaves the timer armed for
`t+240`, and the settle explosion still spawns at the move's pointer
position when the timer fires. -/
theorem activation_preserves_settle_timer (s : GameState) (x y cx cy t d : ℚ)
    (h : s.firstClickHandled = true) (hd : d < 240) :
    (stepOp (stepOp s (Op.move x y t)) (Op.click cx cy (t + d))).pendingSettle
        = some (t + 240) ∧
      (stepOp (stepOp s (Op.move x y t)) (Op.click cx cy (t + d))).explosions
        = s.explosions ++ [mkExplosion s.nextEid cx cy (t + d)] ∧
      (stepOp (stepOp (stepOp s (Op.move x y t)) (Op.click cx cy (t + d)))
          (Op.settleDue (t + 240))).explosions
        = s.explosions ++ [mkExplosion s.nextEid cx cy (t + d)]
            ++ [mkExplosion (s.nextEid + 1) x y (t + 240)] := by
  set s2 := stepOp (stepOp s (Op.move x y t)) (Op.click cx cy (t + d)) with hs2
  have hps : s2.pendingSettle = some (t + 240) := by
    show (if s.firstClickHandled = true then some (t + 240) else none) = some (t + 240)
    rw [h, if_pos rfl]
  have hstep : stepOp s2 (Op.settleDue (t + 240))
      = spawnExplosion { s2 with pendingSettle := none } s2.mouseX s2.mouseY (t + 240) := by
    show settleFire s2 (t + 240) = _
    unfold settleFire
    rw [hps]
    show (if t + 240 ≤ t + 240 then
        spawnExplosion { s2 with pendingSettle := none } s2.mouseX s2.mouseY (t + 240)
      else s2) = _
    rw [if_pos (le_refl _)]
  refine ⟨hps, rfl, ?_⟩
  rw [hstep]
  rfl

/-- C9: if the runner is dead and the session is past the 30-second mark,
the very next `update` step revives it at the spawn position (and then
advances it by `0.12·dt` within the same step), because the time-gated
spawn block is conditioned only on the runner not being alive.  The
explosion-safety hypotheses keep the freshly spawned runner (and the
bomber) from being hit again within the very same step. -/
theorem runner_respawn_gate (s : GameState) (dt now : ℚ)
    (hdead : s.boy.alive = false)
    (ht : now - s.startTime > 30000)
    (hnowrap : ¬ ((-80 : ℚ) + (3/25) * dt - s.boy.w / 2 > s.width + 40))
    (hsafe : ∀ e ∈ (preCollide s dt now).explosions,
      ¬ bCond (preCollide s dt now) e ∧ ¬ yCond (preCollide s dt now) e) :
    (update s dt now).boy.alive = true ∧
      (update s dt now).boy.x = -80 + (3/25) * dt ∧
      (update s dt now).boy.y = groundY s.height - 8 := by
  have h1 : (missilePhase s).boy = s.boy := missilePhase_boy s
  have h2 : (spawnPhase (missilePhase s) now).boy
      = { s.boy with alive := true, x := -80, y := groundY s.height - 8 } := by
    rw [spawnPhase_boy_dead now (by rw [h1]; exact hdead)
      (by rw [missilePhase_startTime]; exact ht), h1, missilePhase_height]
  have h3 := boyPhase_boy_alive (s := spawnPhase (missilePhase s) now) dt (by rw [h2])
  rw [h2] at h3
  have hw : (spawnPhase (missilePhase s) now).width = s.width := by
    rw [spawnPhase_width, missilePhase_width]
  rw [hw] at h3
  have h4 : (preCollide s dt now).boy
      = (boyPhase (spawnPhase (missilePhase s) now) dt).boy := by
    unfold preCollide
    rw [pulsePopupPhase_boy, bomberPhase_boy]
  have hne : (preCollide s dt now).boy
      = { s.boy with alive := true, y := groundY s.height - 8, x := -80 + (3/25) * dt } := by
    rw [h4, h3]
    dsimp only
    rw [if_neg hnowrap]
  have hnoop := collide_noop now ((preCollide s dt now).explosions.length + 1)
    (preCollide s dt now) [] (preCollide s dt now).explosions (by omega) hsafe
  have hupd : update s dt now
      = { preCollide s dt now with explosions := [] ++ (preCollide s dt now).explosions } := by
    unfold update collisionPhase
    exact hnoop
  rw [hupd]
  show (preCollide s dt now).boy.alive = true ∧
    (preCollide s dt now).boy.x = -80 + (3/25) * dt ∧
    (preCollide s dt now).boy.y = groundY s.height - 8
  rw [hne]
  exact ⟨rfl, rfl, rfl⟩

/-! ### Concrete witnesses and counterexamples -/

/-- Witness for the C1 result on the concrete kill session. -/
theorem score_once_per_explosion_witness :
    eKill ∈ (run (initState 800 600 0) killFrameOps).explosions ∧
      eKill.hitBomber = true ∧
      (run (initState 800 600 0) killFrameOps).score
        ≤ (run (run (initState 800 600 0) killFrameOps) []).score := by
  have hm : eKill ∈ (run (initState 800 600 0) killFrameOps).explosions := by decide!
  have h := score_once_per_explosion 800 600 0 killFrameOps [] 16 31032 eKill eKill
    hm rfl hm rfl
  exact ⟨hm, h.1, h.2.1⟩

/-- Witness for the C3 result: the kill frame of the concrete session. -/
theorem flyer_hit_step_effects_witness :
    (update sHitRun 16 31016).score = sHitRun.score + 1 ∧
      (update sHitRun 16 31016).scorePulse = 1 ∧
      (update sHitRun 16 31016).bomber.alive = false ∧
      ((31016 : ℚ) + 1200, TaskKind.respawnBomber) ∈ (update sHitRun 16 31016).tasks ∧
      (update sHitRun 16 31016).explosions.length = sHitRun.explosions.length + 1 := by
  have hc : (preCollide sHitRun 16 31016).bomber.alive = true ∧
      (preCollide sHitRun 16 31016).explosions[0]? = some (mkExplosion 0 (-200) 340 31000) ∧
      circleHit (mkExplosion 0 (-200) 340 31000) (preCollide sHitRun 16 31016).bomber.x
        (preCollide sHitRun 16 31016).bomber.y 40 := by
    decide!
  have h := flyer_hit_step_effects sHitRun 16 31016 0 (mkExplosion 0 (-200) 340 31000)
    hc.1 hc.2.1 rfl rfl hc.2.2
    (fun j hj => absurd hj (Nat.not_lt_zero j))
  exact ⟨h.1, h.2.1, h.2.2.2.1, h.2.2.2.2.1, h.2.2.2.2.2.1⟩

/-- Witness for the C4 result: the `s4w` explosion half-way through its
life. -/
theorem explosion_radius_formula_and_expiry_witness :
    e4w ∈ (stepOp s4w (Op.frame 600)).explosions ∧
      e4w.r = radiusAt e4w.maxR e4w.lifeMs (600 - e4w.createdAt) ∧
      (600 : ℚ) - e4w.createdAt ≤ e4w.lifeMs ∧
      radiusAt 140 1200 0 ≤ radiusAt 140 1200 600 := by
  have hmem : e4w ∈ (stepOp s4w (Op.frame 600)).explosions := by decide!
  have h := explosion_radius_formula_and_expiry s4w 600 e4w hmem
  exact ⟨hmem, h.1 rfl, h.2.1,
    h.2.2 140 1200 0 600 (by norm_num) (by norm_num) (by norm_num)⟩

/-- Witness for the C5 result on the concrete ordering scenario. -/
theorem step_tests_collisions_before_growth_witness :
    ∃ e1, (update sOrder 16 600).explosions[0]? = some e1 ∧
      e1.r = (⟨0, 0, 0, 0, 140, true, 590, 1200, false, false⟩ : Explosion).r := by
  have h := step_tests_collisions_before_growth sOrder 16 600 0
    ⟨0, 0, 0, 0, 140, true, 590, 1200, false, false⟩ (by decide!)
  exact h.1

/-- Counterexample to the spec's C5 ordering: in `sOrder`, the source order
scores 0 (hit test runs with the stale zero radius) while the spec's
grow-then-collide order scores 1, so the two frame functions differ. -/
theorem frame_order_counterexample :
    (stepOp sOrder (Op.frame 600)).score = 0 ∧
      (specOrderedFrame sOrder 600).score = 1 ∧
      stepOp sOrder (Op.frame 600) ≠ specOrderedFrame sOrder 600 := by
  decide!

/-- Witness for the C6 result: the initial (dead) bomber is revived by the
first update past the spawn gate. -/
theorem flyer_respawns_next_update_witness :
    (update (initState 800 600 0) 16 31000).bomber.alive = true :=
  flyer_respawns_next_update (initState 800 600 0) 16 31000 (by decide!)
    (by decide!) (by decide!)

/-- Counterexample to the spec's C6 dormancy claim: the bomber killed at
281032 ms has its respawn callback scheduled for 282232 ms, yet is alive
again right after the frame at 281048 ms, well before the callback. -/
theorem flyer_dormancy_counterexample :
    (run (initState 50000 600 0) opsKill6).bomber.alive = false ∧
      (run (initState 50000 600 0) opsKill6).tasks = [(282232, TaskKind.respawnBomber)] ∧
      (run (initState 50000 600 0) (opsKill6 ++ [Op.frame 281048])).bomber.alive = true ∧
      (281048 : ℚ) < 282232 := by
  decide!

/-- Witness for the C7 result at the spec's own scenario values. -/
theorem runner_motion_and_wrap_threshold_witness :
    (update s7wrap 16 600).boy.y = s7wrap.boy.y ∧
      (update s7wrap 16 600).boy.x
        = (if s7wrap.boy.x + (3/25) * 16 - s7wrap.boy.w / 2 > s7wrap.width + 40 then -80
           else s7wrap.boy.x + (3/25) * 16) :=
  runner_motion_and_wrap_threshold s7wrap 16 600 (by decide!)

/-- Counterexample to the spec's C7 wraparound scenario: the runner at
`x = width + 41` is not reset by the next frame — it advances to
`841 + 0.12·16 = 21073/25`, because the wrap tests `x − w/2 > width + 40`,
i.e. only beyond `width + 54`. -/
theorem runner_wrap_counterexample :
    s7wrap.width = 800 ∧ s7wrap.boy.x = 800 + 41 ∧ s7wrap.boy.alive = true ∧
      (stepOp s7wrap (Op.frame 16)).boy.x = 21073/25 ∧
      ((21073 : ℚ)/25 ≠ -80) := by
  decide!

/-- Witness for the C8 result on a concrete armed session. -/
theorem settle_debounce_witness :
    (run sClicked [Op.move 3 4 1000, Op.move 5 6 (1000 + 100),
        Op.move 7 8 (1000 + 200)]).pendingSettle = some (1000 + 440) ∧
      (stepOp (run sClicked [Op.move 3 4 1000, Op.move 5 6 (1000 + 100),
          Op.move 7 8 (1000 + 200)]) (Op.settleDue (1000 + 440))).explosions
        = sClicked.explosions ++ [mkExplosion sClicked.nextEid 7 8 (1000 + 440)] := by
  have h := settle_debounce sClicked 3 4 5 6 7 8 1000 rfl
  exact ⟨h.1, h.2.2.1⟩

/-- Witness for the C9 result: the initial (dead) runner is revived by the
first update past the spawn gate and advanced within the same step. -/
theorem runner_respawn_gate_witness :
    (update (initState 800 600 0) 16 31000).boy.alive = true ∧
      (update (initState 800 600 0) 16 31000).boy.x = -80 + (3/25) * 16 ∧
      (update (initState 800 600 0) 16 31000).boy.y
        = groundY (initState 800 600 0).height - 8 :=
  runner_respawn_gate (initState 800 600 0) 16 31000 (by decide!)
    (by decide!) (by decide!) (by decide!)

/-- Witness for the C10 result: a click 50 ms into the debounce window
leaves the timer armed and both explosions spawn. -/
theorem activation_preserves_settle_timer_witness :
    (stepOp (stepOp sClicked (Op.move 3 4 1000)) (Op.click 9 9 (1000 + 50))).pendingSettle
        = some (1000 + 240) ∧
      (stepOp (stepOp (stepOp sClicked (Op.move 3 4 1000)) (Op.click 9 9 (1000 + 50)))
          (Op.settleDue (1000 + 240))).explosions
        = sClicked.explosions ++ [mkExplosion sClicked.nextEid 9 9 (1000 + 50)]
            ++ [mkExplosion (sClicked.nextEid + 1) 3 4 (1000 + 240)] := by
  have h := activation_preserves_settle_timer sClicked 3 4 9 9 1000 50 rfl (by norm_num)
  exact ⟨h.1, h.2.2⟩

/-- Counterexample to the spec's C10 both-explosions claim: when the move
precedes the *first* activation, the timer was never armed (arming requires
a prior activation), so only the activation explosion ever exists and the
claimed settle detonation at 240 ms never fires. -/
theorem settle_lost_on_first_activation_counterexample :
    (100 : ℚ) < 240 ∧
      (run (initState 800 600 0) [Op.move 10 10 0, Op.click 20 20 100]).pendingSettle = none ∧
      (run (initState 800 600 0) [Op.move 10 10 0, Op.click 20 20 100]).explosions.length = 1 ∧
      (stepOp (run (initState 800 600 0) [Op.move 10 10 0, Op.click 20 20 100])
        (Op.settleDue 240)).explosions.length = 1 := by
  decide!

end CB
